import Mathlib

/-
Verification development for the StrideScore harness-racing rating engine.

Shallow embedding of the two core source modules:
  * `Stridescore` models stridescore.py — the persisted rating store, the
    read-time decay rule, and `process_parsed_race` (the per-race Bayesian
    update pipeline, the qualifier handler and the audit upsert).
  * `Claudeml` models claudeml.py — the odds-report generator: store lookups
    with defaults, the adaptive fusion of horse/driver/trainer ratings and
    the log-sum-exp win-probability computation.

Modelling conventions:
  * Python floats are modelled as real numbers (`ℝ`); `math.log`/`math.exp`
    become `Real.log`/`Real.exp`.
  * Timestamps are modelled as integer day indices (`ℤ`); the Python code
    computes `(current_dt - last_played_dt).days`, which becomes integer
    subtraction.  The strptime fall-back paths (which only fire on corrupt
    timestamp strings) are outside the model: stored timestamps always parse.
  * SQLite tables become association lists; `INSERT OR IGNORE`,
    `UPDATE ... WHERE`, `INSERT OR REPLACE` and plain `INSERT` become the
    helpers `insertOrIgnore`, `updateWhere`, `insertOrReplaceEntry` and list
    append.  `DRY_RUN` is `False` (the writing path is modelled).
  * `trueskill.rate(teams, ranks)` is an external library call; the pipeline
    is parameterised by a function
    `rate : List Rating → List ℤ → Option (List Rating)` (teams are
    singleton tuples in the source, so a team is one `Rating`; a raised
    exception is `none`).
  * The observable log levels of process_parsed_race (warning for a skipped
    race, error for a failed TrueSkill call) are reified in `ProcOutcome`.
-/

namespace Stridescore

/-- Module-level constant DEFAULT_MU = 1000. -/
def DEFAULT_MU : ℝ := 1000

/-- Module-level constant DEFAULT_SIGMA = 333.333. -/
def DEFAULT_SIGMA : ℝ := 333.333

/-- Module-level constant MAX_DECAY = 0.50. -/
def MAX_DECAY : ℝ := 0.50

/-- Module-level constant MIN_DAYS_NO_DECAY = 28. -/
def MIN_DAYS_NO_DECAY : ℤ := 28

/-- Module-level constant MAX_DAYS_DECAY = 365. -/
def MAX_DAYS_DECAY : ℤ := 365

/-- Module-level constant HORSE_WEIGHT = 0.8. -/
def HORSE_WEIGHT : ℝ := 0.8

/-- Module-level constant DRIVER_WEIGHT = 0.1. -/
def DRIVER_WEIGHT : ℝ := 0.1

/-- Module-level constant TRAINER_WEIGHT = 0.1. -/
def TRAINER_WEIGHT : ℝ := 0.1

/-- A trueskill.Rating value: a mean and an uncertainty. -/
structure Rating where
  mu : ℝ
  sigma : ℝ

/-- calculate_rating_decay(mu, days_since_last_played): log-based decay.
No decay up to MIN_DAYS_NO_DECAY days; days capped at MAX_DAYS_DECAY;
ratio = log(x)/log(max_x); result mu * (1 - ratio * MAX_DECAY). -/
noncomputable def calculate_rating_decay (mu : ℝ) (days_since_last_played : ℤ) : ℝ :=
  if days_since_last_played ≤ MIN_DAYS_NO_DECAY then mu
  else
    let days := if days_since_last_played > MAX_DAYS_DECAY then MAX_DAYS_DECAY
                else days_since_last_played
    let x : ℤ := max 1 ((days - MIN_DAYS_NO_DECAY) + 1)
    let max_x : ℤ := (MAX_DAYS_DECAY - MIN_DAYS_NO_DECAY) + 1
    if max_x ≤ 1 then mu
    else
      let ratio : ℝ := Real.log (x : ℝ) / Real.log ((max_x : ℤ) : ℝ)
      mu * (1 - ratio * MAX_DECAY)

/-- One row of player_ratings / driver_ratings / trainer_ratings. -/
structure PlayerRow where
  mu : ℝ
  sigma : ℝ
  last_played : ℤ
  last_track : Option String

/-- One row of horse_history / driver_history / trainer_history.
`horse_name` is NULL for horse_history rows. -/
structure HistRow where
  name : String
  mu : ℝ
  sigma : ℝ
  race_date : ℤ
  last_track : Option String
  horse_name : Option String
  finish_position : Option String
  race_class : Option String

/-- One row of race_entries (audit table, primary key
(race_date, track, race_number, horse_name)). -/
structure RaceEntryRow where
  race_date : ℤ
  track : String
  race_number : ℕ
  horse_name : String
  driver_name : Option String
  trainer_name : Option String
  finish_position : Option String
  race_class : Option String
  gait : String
  is_qualifier : Bool
deriving DecidableEq

/-- One discipline's SQLite database (e.g. trotters.db or pacers.db). -/
structure DB where
  player_ratings : List (String × PlayerRow)
  driver_ratings : List (String × PlayerRow)
  trainer_ratings : List (String × PlayerRow)
  horse_history : List HistRow
  driver_history : List HistRow
  trainer_history : List HistRow
  race_entries : List RaceEntryRow

/-- SELECT by primary-key name from a ratings table. -/
def tableLookup (t : List (String × PlayerRow)) (n : String) : Option PlayerRow :=
  match t with
  | [] => none
  | (k, v) :: rest => if k = n then some v else tableLookup rest n

/-- UPDATE ... WHERE name = n (no-op when the row is absent, as in SQL). -/
def updateWhere (t : List (String × PlayerRow)) (n : String) (row : PlayerRow) :
    List (String × PlayerRow) :=
  match t with
  | [] => []
  | (k, v) :: rest =>
    if k = n then (k, row) :: updateWhere rest n row
    else (k, v) :: updateWhere rest n row

/-- INSERT OR IGNORE: append the row unless the key is already present. -/
def insertOrIgnore (t : List (String × PlayerRow)) (n : String) (row : PlayerRow) :
    List (String × PlayerRow) :=
  if (tableLookup t n).isSome then t else t ++ [(n, row)]

/-- Natural key of a race_entries row. -/
def raceEntryKey (r : RaceEntryRow) : ℤ × String × ℕ × String :=
  (r.race_date, r.track, r.race_number, r.horse_name)

/-- INSERT OR REPLACE into race_entries: drop any row with the same natural
key, then insert. -/
def insertOrReplaceEntry (t : List RaceEntryRow) (r : RaceEntryRow) : List RaceEntryRow :=
  t.filter (fun e => decide (raceEntryKey e ≠ raceEntryKey r)) ++ [r]

/-- A fresh default row, as written by add_horse / add_person. -/
def defaultRow (race_date : ℤ) (race_track : Option String) : PlayerRow :=
  ⟨DEFAULT_MU, DEFAULT_SIGMA, race_date, race_track⟩

/-- Which person table a generic "person" operation targets
(person_type ∈ {"driver", "trainer"} in the source). -/
inductive PersonKind where
  | driver
  | trainer
deriving DecidableEq

/-- The ratings table for a person kind. -/
def personTable (db : DB) : PersonKind → List (String × PlayerRow)
  | .driver => db.driver_ratings
  | .trainer => db.trainer_ratings

/-- Replace the ratings table for a person kind. -/
def setPersonTable (db : DB) : PersonKind → List (String × PlayerRow) → DB
  | .driver, t => { db with driver_ratings := t }
  | .trainer, t => { db with trainer_ratings := t }

/-- Append to the history table for a person kind. -/
def appendPersonHistory (db : DB) : PersonKind → HistRow → DB
  | .driver, r => { db with driver_history := db.driver_history ++ [r] }
  | .trainer, r => { db with trainer_history := db.trainer_history ++ [r] }

/-- add_horse: INSERT OR IGNORE a default-rated horse row. -/
def add_horse (db : DB) (player_name : String) (race_date : ℤ) (race_track : Option String) :
    DB :=
  { db with player_ratings :=
      insertOrIgnore db.player_ratings player_name (defaultRow race_date race_track) }

/-- add_person: INSERT OR IGNORE a default-rated driver/trainer row. -/
def add_person (db : DB) (person_name : String) (pk : PersonKind) (race_date : ℤ)
    (race_track : Option String) : DB :=
  setPersonTable db pk
    (insertOrIgnore (personTable db pk) person_name (defaultRow race_date race_track))

/-- get_player_rating: fetch a horse's row and apply read-time decay to mu
(sigma is never decayed).  The source also returns the raw last_played
string; only the rating component is used by the pipeline. -/
noncomputable def get_player_rating (db : DB) (player_name : String) (race_date : ℤ) :
    Option Rating :=
  match tableLookup db.player_ratings player_name with
  | none => none
  | some row =>
    some ⟨calculate_rating_decay row.mu (race_date - row.last_played), row.sigma⟩

/-- get_person_rating: fetch a driver/trainer row and apply read-time decay.
Returns None for a falsy (empty) name, as `if not person_name` does. -/
noncomputable def get_person_rating (db : DB) (person_name : String) (pk : PersonKind)
    (race_date : ℤ) : Option Rating :=
  if person_name = "" then none
  else
    match tableLookup (personTable db pk) person_name with
    | none => none
    | some row =>
      some ⟨calculate_rating_decay row.mu (race_date - row.last_played), row.sigma⟩

/-- update_player_rating: UPDATE mu, sigma, last_played, last_track WHERE name. -/
def update_player_rating (db : DB) (player_name : String) (new_rating : Rating)
    (race_date : ℤ) (race_track : Option String) : DB :=
  let row : PlayerRow := ⟨new_rating.mu, new_rating.sigma, race_date, race_track⟩
  { db with player_ratings := updateWhere db.player_ratings player_name row }

/-- update_person_rating: UPDATE mu, sigma, last_raced, last_track WHERE name. -/
def update_person_rating (db : DB) (person_name : String) (pk : PersonKind)
    (new_rating : Rating) (race_date : ℤ) (race_track : Option String) : DB :=
  setPersonTable db pk
    (updateWhere (personTable db pk) person_name
      ⟨new_rating.mu, new_rating.sigma, race_date, race_track⟩)

/-- log_horse_race: INSERT one horse_history row. -/
def log_horse_race (db : DB) (player_name : String) (mu sigma : ℝ) (race_date : ℤ)
    (race_track : Option String) (finish_position : Option String)
    (race_class : Option String) : DB :=
  { db with horse_history :=
      db.horse_history ++ [⟨player_name, mu, sigma, race_date, race_track, none,
        finish_position, race_class⟩] }

/-- log_person_race: INSERT one driver_history/trainer_history row. -/
def log_person_race (db : DB) (person_name : String) (pk : PersonKind) (mu sigma : ℝ)
    (race_date : ℤ) (race_track : Option String) (horse_name : Option String)
    (finish_position : Option String) (race_class : Option String) : DB :=
  appendPersonHistory db pk
    ⟨person_name, mu, sigma, race_date, race_track, horse_name, finish_position, race_class⟩

/-- store_race_entry: INSERT OR REPLACE one race_entries row. -/
def store_race_entry (db : DB) (race_date : ℤ) (track : String) (race_number : ℕ)
    (horse_name : String) (driver_name trainer_name : Option String)
    (finish_position : Option String) (race_class : Option String) (gait : String)
    (is_qualifier : Bool) : DB :=
  let row : RaceEntryRow := ⟨race_date, track, race_number, horse_name, driver_name,
    trainer_name, finish_position, race_class, gait, is_qualifier⟩
  { db with race_entries := insertOrReplaceEntry db.race_entries row }

/-- fetch_and_decay_rating: read-or-create a horse's decayed rating; a missing
horse is added with defaults and the default rating returned. -/
noncomputable def fetch_and_decay_rating (db : DB) (player_name : String) (race_date : ℤ)
    (race_track : Option String) : Rating × DB :=
  match get_player_rating db player_name race_date with
  | some r => (r, db)
  | none => (⟨DEFAULT_MU, DEFAULT_SIGMA⟩, add_horse db player_name race_date race_track)

/-- fetch_and_decay_person_rating: read-or-create a driver/trainer decayed
rating; a falsy name yields the default rating without any write. -/
noncomputable def fetch_and_decay_person_rating (db : DB) (person_name : String)
    (pk : PersonKind) (race_date : ℤ) (race_track : Option String) : Rating × DB :=
  if person_name = "" then (⟨DEFAULT_MU, DEFAULT_SIGMA⟩, db)
  else
    match get_person_rating db person_name pk race_date with
    | some r => (r, db)
    | none => (⟨DEFAULT_MU, DEFAULT_SIGMA⟩, add_person db person_name pk race_date race_track)

/-- The weight dict returned by calculate_adaptive_weights. -/
structure Weights where
  horse : ℝ
  driver : ℝ
  trainer : ℝ

/-- calculate_adaptive_weights(has_driver, has_trainer): the rating engine's
fusion weight table. -/
def calculate_adaptive_weights (has_driver has_trainer : Bool) : Weights :=
  if has_driver && has_trainer then ⟨HORSE_WEIGHT, DRIVER_WEIGHT, TRAINER_WEIGHT⟩
  else if has_driver && !has_trainer then ⟨0.7, 0.3, 0.0⟩
  else if has_trainer && !has_driver then ⟨0.8, 0.0, 0.2⟩
  else ⟨1.0, 0.0, 0.0⟩

/-- The arithmetic tail of get_combined_rating, after the three lookups:
weighted average of the mus and of the sigmas. -/
def get_combined_rating_core (horse_rating driver_rating trainer_rating : Rating)
    (has_driver has_trainer : Bool) : Rating :=
  let weights := calculate_adaptive_weights has_driver has_trainer
  ⟨horse_rating.mu * weights.horse + driver_rating.mu * weights.driver +
      trainer_rating.mu * weights.trainer,
    horse_rating.sigma * weights.horse + driver_rating.sigma * weights.driver +
      trainer_rating.sigma * weights.trainer⟩

/-- get_combined_rating: look up the three (decayed) ratings with default
fall-backs, then combine.  Note the source computes the weights from
`driver_name is not None` (isSome) but fetches via truthiness. -/
noncomputable def get_combined_rating (db : DB) (horse_name : String)
    (driver_name trainer_name : Option String) (race_date : ℤ) : Rating :=
  let horse_rating := (get_player_rating db horse_name race_date).getD
    ⟨DEFAULT_MU, DEFAULT_SIGMA⟩
  let driver_rating := (match driver_name with
    | some dn => get_person_rating db dn .driver race_date
    | none => none).getD ⟨DEFAULT_MU, DEFAULT_SIGMA⟩
  let trainer_rating := (match trainer_name with
    | some tn => get_person_rating db tn .trainer race_date
    | none => none).getD ⟨DEFAULT_MU, DEFAULT_SIGMA⟩
  get_combined_rating_core horse_rating driver_rating trainer_rating
    driver_name.isSome trainer_name.isSome

/-- A parsed finishing position: an integer, the literal "DNF", or absent. -/
inductive FinishVal where
  | pos : ℤ → FinishVal
  | dnf : FinishVal
  | absent : FinishVal
deriving DecidableEq

/-- One parsed starter dict fed to process_parsed_race. -/
structure HorseInfo where
  horse_name : String
  finish : FinishVal
  is_scratched : Bool
  driver_name : Option String
  trainer_name : Option String
deriving DecidableEq

/-- One parsed race dict fed to process_parsed_race. -/
structure Race where
  race_number : ℕ
  date : ℤ
  track : String
  gait : String
  horses : List HorseInfo
  is_qualifier : Bool
  race_class : Option String
deriving DecidableEq

/-- `isinstance(h.get("finish"), int)`. -/
def isIntFinish : FinishVal → Bool
  | .pos _ => true
  | _ => false

/-- The integer finish of a valid starter (0 on the other constructors,
which the pipeline never reaches). -/
def finishOf (h : HorseInfo) : ℤ :=
  match h.finish with
  | .pos n => n
  | _ => 0

/-- The filter for valid starters: not scratched, integer finish. -/
def validStarter (h : HorseInfo) : Bool :=
  !h.is_scratched && isIntFinish h.finish

/-- valid_horses: scratched starters and non-integer finishes removed. -/
def valid_horses (race : Race) : List HorseInfo :=
  race.horses.filter validStarter

/-- sorted_horses: valid starters sorted by finish position ascending
(Python sorted is a stable merge sort). -/
def sorted_horses (race : Race) : List HorseInfo :=
  (valid_horses race).mergeSort (fun a b => decide (finishOf a ≤ finishOf b))

/-- Python str.lower(), modelled character-wise (String.toLower's
byte-position recursion does not reduce in the kernel; on the name strings
handled here the two agree). -/
def pyLower (s : String) : String := ⟨s.data.map Char.toLower⟩

/-- horse_names: lower-cased names of the sorted valid starters. -/
def horse_names (race : Race) : List String :=
  (sorted_horses race).map (fun h => pyLower h.horse_name)

/-- ranks_0_based: finish - 1 per sorted starter. -/
def ranks_0_based (race : Race) : List ℤ :=
  (sorted_horses race).map (fun h => finishOf h - 1)

/-- Python truthiness of an optional string (None and "" are falsy). -/
def truthy : Option String → Bool
  | none => false
  | some s => !(s == "")

/-- Database selection in process_parsed_race: gait "trot" (with the
"galt" OCR correction) selects trotters, anything else pacers. -/
def db_name_for_gait (gait : String) : String :=
  let g := pyLower gait.trim
  let g := if g.startsWith "galt" then "trot" else g
  if g = "trot" then "trotters" else "pacers"

/-- The horse part of one qualifier-loop iteration: fetch the (decayed)
rating and write it back with the fresh last_played/last_track, or create
the horse with defaults.  Note the fetched rating is the *decayed* one. -/
noncomputable def qualifier_refresh_horse (race_date : ℤ) (race_track : String) (db : DB)
    (horse_name : String) : DB :=
  match get_player_rating db horse_name race_date with
  | some rating => update_player_rating db horse_name rating race_date (some race_track)
  | none => add_horse db horse_name race_date (some race_track)

/-- The driver/trainer part of one qualifier-loop iteration: for a truthy
name, fetch the (decayed) rating and write it back with the fresh
last_raced/last_track, or create the person with defaults. -/
noncomputable def qualifier_refresh_person (race_date : ℤ) (race_track : String) (db : DB)
    (pk : PersonKind) (name : Option String) : DB :=
  match name with
  | none => db
  | some n =>
    if n = "" then db
    else
      match get_person_rating db n pk race_date with
      | some rating => update_person_rating db n pk rating race_date (some race_track)
      | none => add_person db n pk race_date (some race_track)

/-- One iteration of the qualifier loop: refresh last_played/last_track for
the horse and, when truthy names are present, the driver and trainer;
creates missing entities. -/
noncomputable def qualifier_step (race_date : ℤ) (race_track : String) (db : DB)
    (horse_info : HorseInfo) : DB :=
  if horse_info.is_scratched then db
  else
    let db1 := qualifier_refresh_horse race_date race_track db (pyLower horse_info.horse_name)
    let db2 := qualifier_refresh_person race_date race_track db1 .driver
      horse_info.driver_name
    qualifier_refresh_person race_date race_track db2 .trainer horse_info.trainer_name

/-- The qualifier branch: loop over all (non-scratched) starters. -/
noncomputable def qualifier_phase (race : Race) (db : DB) : DB :=
  race.horses.foldl (qualifier_step race.date race.track) db

/-- The audit loop: store one race_entries row per sorted valid starter. -/
def store_entries_phase (race : Race) (db : DB) : DB :=
  (sorted_horses race).foldl
    (fun d h =>
      store_race_entry d race.date race.track race.race_number (pyLower h.horse_name)
        h.driver_name h.trainer_name (some (toString (finishOf h))) race.race_class
        race.gait race.is_qualifier)
    db

/-- The horse fetch loop: fetch-or-create each decayed rating in order,
threading the store. -/
noncomputable def fetch_horse_phase (db : DB) (names : List String) (race_date : ℤ)
    (race_track : Option String) : List Rating × DB :=
  match names with
  | [] => ([], db)
  | n :: ns =>
    let (r, db1) := fetch_and_decay_rating db n race_date race_track
    let (rs, db2) := fetch_horse_phase db1 ns race_date race_track
    (r :: rs, db2)

/-- The horse persist loop: write each updated rating and append one
horse_history row per updated starter. -/
def persist_horses_phase (race : Race) (pairs : List (HorseInfo × Rating)) (db : DB) : DB :=
  pairs.foldl
    (fun d (p : HorseInfo × Rating) =>
      let horse_name := pyLower p.1.horse_name
      let d1 := update_player_rating d horse_name p.2 race.date (some race.track)
      log_horse_race d1 horse_name p.2.mu p.2.sigma race.date (some race.track)
        (some (toString (finishOf p.1))) race.race_class)
    db

/-- One collected driver/trainer entity: name, decayed rating, 0-based rank
(equal to the horse's), and the partnered horse. -/
structure PersonEntity where
  name : String
  rating : Rating
  rank : ℤ
  horse_name : String

/-- The name field the entity loop reads for a person kind. -/
def personNameOf (pk : PersonKind) (h : HorseInfo) : Option String :=
  match pk with
  | .driver => h.driver_name
  | .trainer => h.trainer_name

/-- One iteration of the driver/trainer entity collection loop: a starter
with a truthy name contributes one entity (the 0-based rank is its horse's
finish - 1); a missing person is created with defaults here. -/
noncomputable def person_entity_step (pk : PersonKind) (race : Race)
    (acc : List PersonEntity × DB) (h : HorseInfo) : List PersonEntity × DB :=
  match personNameOf pk h with
  | none => acc
  | some n =>
    if n = "" then acc
    else
      let (r, db') := fetch_and_decay_person_rating acc.2 n pk race.date (some race.track)
      (acc.1 ++ [⟨n, r, finishOf h - 1, h.horse_name⟩], db')

/-- The driver/trainer entity collection loop over the sorted starters. -/
noncomputable def person_entities_phase (pk : PersonKind) (race : Race) (db : DB) :
    List PersonEntity × DB :=
  (sorted_horses race).foldl (person_entity_step pk race) ([], db)

/-- The driver/trainer persist loop: write each updated rating and append one
history row recording rank + 1 as the finish position. -/
def persist_persons_phase (pk : PersonKind) (race : Race)
    (pairs : List (PersonEntity × Rating)) (db : DB) : DB :=
  pairs.foldl
    (fun d (p : PersonEntity × Rating) =>
      let d1 := update_person_rating d p.1.name pk p.2 race.date (some race.track)
      log_person_race d1 p.1.name pk p.2.mu p.2.sigma race.date (some race.track)
        (some p.1.horse_name) (some (toString (p.1.rank + 1))) race.race_class)
    db

/-- The guarded driver/trainer update: no rate call when no entities were
collected; a rate failure (the except-branch) leaves the beliefs as they
stood after collection and flags the class as failed. -/
noncomputable def person_rate_phase (rate : List Rating → List ℤ → Option (List Rating))
    (pk : PersonKind) (race : Race) (db : DB) : Bool × DB :=
  let (entities, db1) := person_entities_phase pk race db
  if entities.isEmpty then (false, db1)
  else
    match rate (entities.map PersonEntity.rating) (entities.map PersonEntity.rank) with
    | none => (true, db1)
    | some updated => (false, persist_persons_phase pk race (entities.zip updated) db1)

/-- The observable outcome of process_parsed_race, mirroring its logging:
a warning-and-return for a thin field, the qualifier path, an
error-and-return when the horse-class TrueSkill call fails, and otherwise
completion with per-class failure flags for drivers and trainers. -/
inductive ProcOutcome where
  | skippedFewValid
  | qualifierProcessed
  | horseRateFailed
  | processed (driverFailed trainerFailed : Bool)
deriving DecidableEq

/-- process_parsed_race: filter valid starters; skip thin fields; handle
qualifiers (activity refresh only); otherwise upsert audit rows, run the
horse-class update (aborting the whole race on failure), then the driver
and trainer classes, each guarded by its own try/except. -/
noncomputable def process_parsed_race (rate : List Rating → List ℤ → Option (List Rating))
    (race : Race) (db : DB) : ProcOutcome × DB :=
  if (valid_horses race).length < 2 then (.skippedFewValid, db)
  else if race.is_qualifier then (.qualifierProcessed, qualifier_phase race db)
  else
    let db1 := store_entries_phase race db
    let (decayed_ratings, db2) :=
      fetch_horse_phase db1 (horse_names race) race.date (some race.track)
    match rate decayed_ratings (ranks_0_based race) with
    | none => (.horseRateFailed, db2)
    | some updated =>
      let db3 := persist_horses_phase race ((sorted_horses race).zip updated) db2
      let (driverFailed, db4) := person_rate_phase rate .driver race db3
      let (trainerFailed, db5) := person_rate_phase rate .trainer race db4
      (.processed driverFailed trainerFailed, db5)

/-- The state after the horse-class persist of a non-qualifier race whose
rate call returned `upd`: audit rows stored, horses fetched-or-created,
updated horse beliefs and history written.  This names the intermediate
state of process_parsed_race at which the driver loop starts. -/
noncomputable def pre_driver_state (race : Race) (db : DB) (upd : List Rating) : DB :=
  persist_horses_phase race ((sorted_horses race).zip upd)
    (fetch_horse_phase (store_entries_phase race db) (horse_names race) race.date
      (some race.track)).2

/-- A rate function that bumps every mu by 1 (a stand-in satisfying the
spec's winner-gains property). -/
noncomputable def rateBump : List Rating → List ℤ → Option (List Rating) :=
  fun ts _ => some (ts.map (fun r => ⟨r.mu + 1, r.sigma⟩))

/-- The empty store (freshly initialised schema). -/
def emptyDB : DB := ⟨[], [], [], [], [], [], []⟩

end Stridescore

namespace Claudeml

/-- One discipline database as seen by the report generator. -/
structure MLStore where
  player_ratings : List (String × (ℝ × ℝ))
  driver_ratings : List (String × (ℝ × ℝ))
  trainer_ratings : List (String × (ℝ × ℝ))

/-- The pair of databases the generator consults, in lookup order. -/
structure Stores where
  pacers : MLStore
  trotters : MLStore

/-- SELECT mu, sigma WHERE name. -/
def mlLookup (t : List (String × (ℝ × ℝ))) (n : String) : Option (ℝ × ℝ) :=
  match t with
  | [] => none
  | (k, v) :: rest => if k = n then some v else mlLookup rest n

/-- get_horse_rating: pacers first, then trotters, defaulting to (1000, 333). -/
def get_horse_rating (st : Stores) (horse_name : String) : ℝ × ℝ :=
  match mlLookup st.pacers.player_ratings horse_name with
  | some r => r
  | none =>
    match mlLookup st.trotters.player_ratings horse_name with
    | some r => r
    | none => (1000, 333)

/-- Python truthiness of an optional string (None and "" are falsy). -/
def truthy : Option String → Bool
  | none => false
  | some s => !(s == "")

/-- get_driver_rating: falsy name or missing row ↦ (1000, 333). -/
def get_driver_rating (st : Stores) (driver_name : Option String) : ℝ × ℝ :=
  match driver_name with
  | none => (1000, 333)
  | some dn =>
    if dn = "" then (1000, 333)
    else
      match mlLookup st.pacers.driver_ratings dn with
      | some r => r
      | none =>
        match mlLookup st.trotters.driver_ratings dn with
        | some r => r
        | none => (1000, 333)

/-- get_trainer_rating: falsy name or missing row ↦ (1000, 333). -/
def get_trainer_rating (st : Stores) (trainer_name : Option String) : ℝ × ℝ :=
  match trainer_name with
  | none => (1000, 333)
  | some tn =>
    if tn = "" then (1000, 333)
    else
      match mlLookup st.pacers.trainer_ratings tn with
      | some r => r
      | none =>
        match mlLookup st.trotters.trainer_ratings tn with
        | some r => r
        | none => (1000, 333)

/-- The weight selection inlined in calculate_combined_rating. -/
def combined_weights (has_driver has_trainer : Bool) : ℝ × ℝ × ℝ :=
  if has_driver && has_trainer then (0.6, 0.25, 0.15)
  else if has_driver then (0.7, 0.3, 0.0)
  else if has_trainer then (0.8, 0.0, 0.2)
  else (1.0, 0.0, 0.0)

/-- The arithmetic tail of calculate_combined_rating after the lookups:
weighted average of mus and of sigmas. -/
def calculate_combined_rating_core (hmu hsig dmu dsig tmu tsig : ℝ)
    (has_driver has_trainer : Bool) : ℝ × ℝ :=
  let w := combined_weights has_driver has_trainer
  (hmu * w.1 + dmu * w.2.1 + tmu * w.2.2, hsig * w.1 + dsig * w.2.1 + tsig * w.2.2)

/-- The full tuple calculate_combined_rating returns. -/
structure MLCombined where
  combined_mu : ℝ
  combined_sigma : ℝ
  horse_mu : ℝ
  horse_sigma : ℝ
  driver_mu : ℝ
  driver_sigma : ℝ
  trainer_mu : ℝ
  trainer_sigma : ℝ

/-- calculate_combined_rating: look up the three ratings (defaults for falsy
names), pick the weight case by name truthiness, and combine. -/
def calculate_combined_rating (st : Stores) (horse_name : String)
    (driver_name trainer_name : Option String) : MLCombined :=
  let h := get_horse_rating st horse_name
  let d := if truthy driver_name then get_driver_rating st driver_name else ((1000 : ℝ), (333 : ℝ))
  let t := if truthy trainer_name then get_trainer_rating st trainer_name else ((1000 : ℝ), (333 : ℝ))
  let c := calculate_combined_rating_core h.1 h.2 d.1 d.2 t.1 t.2
    (truthy driver_name) (truthy trainer_name)
  ⟨c.1, c.2, h.1, h.2, d.1, d.2, t.1, t.2⟩

/-- The fixed softmax scale beta = 166.5. -/
def BETA : ℝ := 166.5

/-- One starter dict handed to calculate_win_probabilities. -/
structure MLStarter where
  horse_name : String
  driver_name : Option String
  trainer_name : Option String
deriving DecidableEq

/-- One element of the `ratings` list built in calculate_win_probabilities. -/
structure RatingsTuple where
  name : String
  combined_mu : ℝ
  combined_sigma : ℝ
  horse_mu : ℝ
  driver_mu : ℝ
  trainer_mu : ℝ
  driver_name : Option String
  trainer_name : Option String

/-- One element of the returned horse_odds list. -/
structure OddsRow where
  name : String
  win_probability : ℝ
  decimal_odds : ℝ
  combined_mu : ℝ
  horse_mu : ℝ
  driver_mu : ℝ
  trainer_mu : ℝ
  driver_name : Option String
  trainer_name : Option String

/-- The `ratings` list: one fused tuple per starter, in input order. -/
def ratingsOf (st : Stores) (horses : List MLStarter) : List RatingsTuple :=
  horses.map (fun h =>
    let c := calculate_combined_rating st h.horse_name h.driver_name h.trainer_name
    ⟨h.horse_name, c.combined_mu, c.combined_sigma, c.horse_mu, c.driver_mu, c.trainer_mu,
      h.driver_name, h.trainer_name⟩)

/-- `max_mu = max(r[1] for r in ratings)` (0 on the empty list, on which the
source instead raises; the pipeline guards that case). -/
def maxMuOf (st : Stores) (horses : List MLStarter) : ℝ :=
  match ratingsOf st horses with
  | [] => 0
  | r :: rest => rest.foldl (fun m x => max m x.combined_mu) r.combined_mu

/-- The exp score of one fused tuple: `exp((mu - max_mu) / beta)`. -/
noncomputable def expScore (st : Stores) (horses : List MLStarter) (r : RatingsTuple) : ℝ :=
  Real.exp ((r.combined_mu - maxMuOf st horses) / BETA)

/-- `total_exp = sum(e for e, _ in exp_values)`. -/
noncomputable def totalExpOf (st : Stores) (horses : List MLStarter) : ℝ :=
  ((ratingsOf st horses).map (expScore st horses)).sum

/-- The odds row built for one fused tuple: its own win probability joined
(by `next(... if data[0] == name)`) with the first ratings tuple of the
same name.  `float("inf")` on a non-positive probability is modelled by the
junk value 0; the branch is provably never taken. -/
noncomputable def oddsRowOf (st : Stores) (horses : List MLStarter) (r : RatingsTuple) :
    OddsRow :=
  let p := expScore st horses r / totalExpOf st horses
  let d := ((ratingsOf st horses).find? (fun x => x.name == r.name)).getD r
  ⟨r.name, p, if 0 < p then 1 / p else 0, d.combined_mu, d.horse_mu, d.driver_mu,
    d.trainer_mu, d.driver_name, d.trainer_name⟩

/-- calculate_win_probabilities: none on an empty field (`max()` raises);
otherwise exp scores per starter, the per-name join back into `ratings`,
and a sort by descending win probability (Python's stable sort with
reverse=True). -/
noncomputable def calculate_win_probabilities (st : Stores) (horses : List MLStarter) :
    Option (List OddsRow) :=
  if horses = [] then none
  else
    let ratings := ratingsOf st horses
    let exp_values := ratings.map (fun r => (expScore st horses r, r.name))
    let horse_odds := exp_values.filterMap (fun en =>
      (ratings.find? (fun x => x.name == en.2)).map (fun d =>
        let p := en.1 / totalExpOf st horses
        (⟨en.2, p, if 0 < p then 1 / p else 0, d.combined_mu, d.horse_mu, d.driver_mu,
          d.trainer_mu, d.driver_name, d.trainer_name⟩ : OddsRow)))
    some (horse_odds.mergeSort (fun a b => decide (b.win_probability ≤ a.win_probability)))

/-- A pair of empty stores. -/
def emptyStores : Stores := ⟨⟨[], [], []⟩, ⟨[], [], []⟩⟩

end Claudeml

namespace Stridescore

/-- A ratings-table row records the activity refresh of a given race: its
last_played is the race date and its last_track the race venue. -/
def goodRow (race_date : ℤ) (race_track : String) (row : PlayerRow) : Prop :=
  row.last_played = race_date ∧ row.last_track = some race_track

/-- A name is present in a ratings table with the activity refresh of the
given race recorded. -/
def refreshedIn (t : List (String × PlayerRow)) (n : String) (race_date : ℤ)
    (race_track : String) : Prop :=
  ∃ row, tableLookup t n = some row ∧ goodRow race_date race_track row

/-- A rate function that always raises (used to exercise abort paths). -/
def rateNone : List Rating → List ℤ → Option (List Rating) := fun _ _ => none

/-- A rate function that raises exactly on the two-starter call with ranks
[0, 1] (the horse-class call of a two-horse race) and is the identity
otherwise. -/
def rateFailPair : List Rating → List ℤ → Option (List Rating) :=
  fun ts ks => if ks = [0, 1] then none else some ts

/-- A rate function that raises exactly on single-entity calls (a ranks list
of length 1 — the driver-class and trainer-class calls of a race naming one
driver and one trainer) and bumps every mu by 1 otherwise. -/
noncomputable def rateFailSingles : List Rating → List ℤ → Option (List Rating) :=
  fun ts ks =>
    if ks.length = 1 then none else some (ts.map (fun r => ⟨r.mu + 1, r.sigma⟩))

/-- A two-starter non-qualifier race with exactly one valid finisher
(the second starter has no parsed finish position). -/
def exThinRace : Race :=
  ⟨1, 5, "t", "pace", [⟨"a", .pos 1, false, none, none⟩, ⟨"b", .absent, false, none, none⟩],
    false, none⟩

/-- A qualifier race whose two non-scratched starters both finished DNF:
no starter carries a valid integer finishing position. -/
def exDnfQualifierRace : Race :=
  ⟨1, 5, "t", "pace", [⟨"a", .dnf, false, none, none⟩, ⟨"b", .dnf, false, none, none⟩],
    true, none⟩

/-- A qualifier race with two valid finishers; the first names a driver and
a trainer. -/
def exQualifierRace : Race :=
  ⟨1, 100, "t", "pace",
    [⟨"a", .pos 1, false, some "d", some "u"⟩, ⟨"b", .pos 2, false, none, none⟩],
    true, none⟩

/-- A qualifier race on day 100 with two valid finishers and no driver or
trainer names. -/
def exQualifierPlainRace : Race :=
  ⟨1, 100, "t", "pace",
    [⟨"a", .pos 1, false, none, none⟩, ⟨"b", .pos 2, false, none, none⟩],
    true, none⟩

/-- A store holding one horse "a" with the default belief last active on
day 0 (100 days before exQualifierPlainRace). -/
def agedDB : DB :=
  ⟨[("a", ⟨1000, 333.333, 0, none⟩)], [], [], [], [], [], []⟩

/-- A plain two-horse non-qualifier race with no drivers or trainers. -/
def exPlainRace : Race :=
  ⟨1, 5, "t", "pace", [⟨"a", .pos 1, false, none, none⟩, ⟨"b", .pos 2, false, none, none⟩],
    false, none⟩

/-- A two-horse non-qualifier race whose winner names driver "d". -/
def exDriverRace : Race :=
  ⟨1, 5, "t", "pace", [⟨"a", .pos 1, false, some "d", none⟩, ⟨"b", .pos 2, false, none, none⟩],
    false, none⟩

/-- A two-horse non-qualifier race whose winner names driver "d" and whose
runner-up names trainer "u". -/
def exDriverTrainerRace : Race :=
  ⟨1, 5, "t", "pace",
    [⟨"a", .pos 1, false, some "d", none⟩, ⟨"b", .pos 2, false, none, some "u"⟩],
    false, none⟩

end Stridescore

/-
Theorems.  Each claim Cn of the specification is settled by one theorem
below; shared helper lemmas precede them.
-/

namespace Stridescore

lemma decay_no_op_of_le {mu : ℝ} {d : ℤ} (h : d ≤ 28) :
    calculate_rating_decay mu d = mu := by
  simp only [calculate_rating_decay, MIN_DAYS_NO_DECAY]
  rw [if_pos h]

lemma decay_sat_of_ge {mu : ℝ} {d : ℤ} (h : 365 ≤ d) :
    calculate_rating_decay mu d = mu * 0.5 := by
  simp only [calculate_rating_decay, MIN_DAYS_NO_DECAY, MAX_DAYS_DECAY, MAX_DECAY]
  rw [if_neg (by omega)]
  have hdays : (if d > 365 then (365 : ℤ) else d) = 365 := by
    split_ifs <;> omega
  rw [hdays]
  have hx : max (1 : ℤ) ((365 - 28) + 1) = 338 := by decide
  rw [hx]
  rw [if_neg (by decide)]
  have h338 : Real.log (338 : ℝ) ≠ 0 := ne_of_gt (Real.log_pos (by norm_num))
  push_cast
  rw [div_self h338]
  norm_num

end Stridescore

/-- Claim C3: for every real mu and every integer days_inactive, decay with
days_inactive ≤ 28 returns mu unchanged, and decay with
days_inactive ≥ 365 returns exactly mu * 0.5. -/
theorem claim_C3_decay_endpoints (mu : ℝ) (d : ℤ) :
    (d ≤ 28 → Stridescore.calculate_rating_decay mu d = mu) ∧
    (365 ≤ d → Stridescore.calculate_rating_decay mu d = mu * 0.5) :=
  ⟨fun h => Stridescore.decay_no_op_of_le h, fun h => Stridescore.decay_sat_of_ge h⟩

/-- Witness for C3 at mu = 7, days 10 and 400. -/
theorem claim_C3_decay_endpoints_witness :
    Stridescore.calculate_rating_decay 7 10 = 7 ∧
    Stridescore.calculate_rating_decay 7 400 = 7 * 0.5 :=
  ⟨(claim_C3_decay_endpoints 7 10).1 (by norm_num),
    (claim_C3_decay_endpoints 7 400).2 (by norm_num)⟩

lemma convex3 (w1 w2 w3 a b c : ℝ) (h1 : 0 ≤ w1) (h2 : 0 ≤ w2) (h3 : 0 ≤ w3)
    (hs : w1 + w2 + w3 = 1) :
    min a (min b c) ≤ a * w1 + b * w2 + c * w3 ∧
      a * w1 + b * w2 + c * w3 ≤ max a (max b c) := by
  have la1 : min a (min b c) ≤ a := min_le_left _ _
  have la2 : min a (min b c) ≤ b := le_trans (min_le_right _ _) (min_le_left _ _)
  have la3 : min a (min b c) ≤ c := le_trans (min_le_right _ _) (min_le_right _ _)
  have ub1 : a ≤ max a (max b c) := le_max_left _ _
  have ub2 : b ≤ max a (max b c) := le_trans (le_max_left _ _) (le_max_right _ _)
  have ub3 : c ≤ max a (max b c) := le_trans (le_max_right _ _) (le_max_right _ _)
  constructor
  · have e1 : min a (min b c) * w1 ≤ a * w1 := mul_le_mul_of_nonneg_right la1 h1
    have e2 : min a (min b c) * w2 ≤ b * w2 := mul_le_mul_of_nonneg_right la2 h2
    have e3 : min a (min b c) * w3 ≤ c * w3 := mul_le_mul_of_nonneg_right la3 h3
    have em : min a (min b c) * w1 + min a (min b c) * w2 + min a (min b c) * w3
        = min a (min b c) := by
      have hr : min a (min b c) * w1 + min a (min b c) * w2 + min a (min b c) * w3
          = min a (min b c) * (w1 + w2 + w3) := by ring
      rw [hr, hs, mul_one]
    linarith
  · have e1 : a * w1 ≤ max a (max b c) * w1 := mul_le_mul_of_nonneg_right ub1 h1
    have e2 : b * w2 ≤ max a (max b c) * w2 := mul_le_mul_of_nonneg_right ub2 h2
    have e3 : c * w3 ≤ max a (max b c) * w3 := mul_le_mul_of_nonneg_right ub3 h3
    have em : max a (max b c) * w1 + max a (max b c) * w2 + max a (max b c) * w3
        = max a (max b c) := by
      have hr : max a (max b c) * w1 + max a (max b c) * w2 + max a (max b c) * w3
          = max a (max b c) * (w1 + w2 + w3) := by ring
      rw [hr, hs, mul_one]
    linarith

lemma convex2 (w1 w2 a b : ℝ) (h1 : 0 ≤ w1) (h2 : 0 ≤ w2) (hs : w1 + w2 = 1) :
    min a b ≤ a * w1 + b * w2 ∧ a * w1 + b * w2 ≤ max a b := by
  have la1 : min a b ≤ a := min_le_left _ _
  have la2 : min a b ≤ b := min_le_right _ _
  have ub1 : a ≤ max a b := le_max_left _ _
  have ub2 : b ≤ max a b := le_max_right _ _
  constructor
  · have e1 : min a b * w1 ≤ a * w1 := mul_le_mul_of_nonneg_right la1 h1
    have e2 : min a b * w2 ≤ b * w2 := mul_le_mul_of_nonneg_right la2 h2
    have em : min a b * w1 + min a b * w2 = min a b := by
      have hr : min a b * w1 + min a b * w2 = min a b * (w1 + w2) := by ring
      rw [hr, hs, mul_one]
    linarith
  · have e1 : a * w1 ≤ max a b * w1 := mul_le_mul_of_nonneg_right ub1 h1
    have e2 : b * w2 ≤ max a b * w2 := mul_le_mul_of_nonneg_right ub2 h2
    have em : max a b * w1 + max a b * w2 = max a b := by
      have hr : max a b * w1 + max a b * w2 = max a b * (w1 + w2) := by ring
      rw [hr, hs, mul_one]
    linarith


lemma caw_tt : Stridescore.calculate_adaptive_weights true true = ⟨0.8, 0.1, 0.1⟩ := by
  simp [Stridescore.calculate_adaptive_weights, Stridescore.HORSE_WEIGHT,
    Stridescore.DRIVER_WEIGHT, Stridescore.TRAINER_WEIGHT]

lemma caw_tf : Stridescore.calculate_adaptive_weights true false = ⟨0.7, 0.3, 0.0⟩ := by
  simp [Stridescore.calculate_adaptive_weights]

lemma caw_ft : Stridescore.calculate_adaptive_weights false true = ⟨0.8, 0.0, 0.2⟩ := by
  simp [Stridescore.calculate_adaptive_weights]

lemma caw_ff : Stridescore.calculate_adaptive_weights false false = ⟨1.0, 0.0, 0.0⟩ := by
  simp [Stridescore.calculate_adaptive_weights]

lemma mlw_tt : Claudeml.combined_weights true true = (0.6, 0.25, 0.15) := by
  simp [Claudeml.combined_weights]

lemma mlw_tf : Claudeml.combined_weights true false = (0.7, 0.3, 0.0) := by
  simp [Claudeml.combined_weights]

lemma mlw_ft : Claudeml.combined_weights false true = (0.8, 0.0, 0.2) := by
  simp [Claudeml.combined_weights]

lemma mlw_ff : Claudeml.combined_weights false false = (1.0, 0.0, 0.0) := by
  simp [Claudeml.combined_weights]

/-- Claim C6: the rating engine's and the odds-report generator's fusion use
identical weight tables in the driver-only, trainer-only and neither-known
cases — and hence compute equal fused mu and sigma on equal input beliefs
there — but differing tables (0.8/0.1/0.1 versus 0.6/0.25/0.15) when both
driver and trainer are known, so some input beliefs with both known fuse to
different mus. -/
theorem claim_C6_fusion_table_divergence :
    (Stridescore.calculate_adaptive_weights true false = ⟨0.7, 0.3, 0.0⟩ ∧
      Claudeml.combined_weights true false = (0.7, 0.3, 0.0)) ∧
    (Stridescore.calculate_adaptive_weights false true = ⟨0.8, 0.0, 0.2⟩ ∧
      Claudeml.combined_weights false true = (0.8, 0.0, 0.2)) ∧
    (Stridescore.calculate_adaptive_weights false false = ⟨1.0, 0.0, 0.0⟩ ∧
      Claudeml.combined_weights false false = (1.0, 0.0, 0.0)) ∧
    (∀ h d t : Stridescore.Rating,
      ((Stridescore.get_combined_rating_core h d t true false).mu,
          (Stridescore.get_combined_rating_core h d t true false).sigma) =
        Claudeml.calculate_combined_rating_core h.mu h.sigma d.mu d.sigma t.mu t.sigma
          true false ∧
      ((Stridescore.get_combined_rating_core h d t false true).mu,
          (Stridescore.get_combined_rating_core h d t false true).sigma) =
        Claudeml.calculate_combined_rating_core h.mu h.sigma d.mu d.sigma t.mu t.sigma
          false true ∧
      ((Stridescore.get_combined_rating_core h d t false false).mu,
          (Stridescore.get_combined_rating_core h d t false false).sigma) =
        Claudeml.calculate_combined_rating_core h.mu h.sigma d.mu d.sigma t.mu t.sigma
          false false) ∧
    (Stridescore.calculate_adaptive_weights true true = ⟨0.8, 0.1, 0.1⟩ ∧
      Claudeml.combined_weights true true = (0.6, 0.25, 0.15)) ∧
    (Stridescore.get_combined_rating_core ⟨1100, 300⟩ ⟨1000, 300⟩ ⟨1000, 300⟩ true true).mu ≠
      (Claudeml.calculate_combined_rating_core 1100 300 1000 300 1000 300 true true).1 := by
  refine ⟨⟨caw_tf, mlw_tf⟩, ⟨caw_ft, mlw_ft⟩, ⟨caw_ff, mlw_ff⟩, ?_, ⟨caw_tt, mlw_tt⟩, ?_⟩
  · intro h d t
    refine ⟨?_, ?_, ?_⟩ <;>
      simp only [Stridescore.get_combined_rating_core,
        Claudeml.calculate_combined_rating_core, caw_tf, caw_ft, caw_ff, mlw_tf, mlw_ft,
        mlw_ff]
  · simp only [Stridescore.get_combined_rating_core, Claudeml.calculate_combined_rating_core,
      caw_tt, mlw_tt]
    norm_num

/-- Claim C10: in both fusion implementations and in all four
data-availability cases the three weights are non-negative and sum to 1,
and the fused mu and sigma are convex combinations lying between the
minimum and maximum of the contributing components. -/
theorem claim_C10_fusion_weights_convex :
    (∀ hd ht : Bool,
      (0 ≤ (Stridescore.calculate_adaptive_weights hd ht).horse ∧
        0 ≤ (Stridescore.calculate_adaptive_weights hd ht).driver ∧
        0 ≤ (Stridescore.calculate_adaptive_weights hd ht).trainer ∧
        (Stridescore.calculate_adaptive_weights hd ht).horse +
          (Stridescore.calculate_adaptive_weights hd ht).driver +
          (Stridescore.calculate_adaptive_weights hd ht).trainer = 1) ∧
      (0 ≤ (Claudeml.combined_weights hd ht).1 ∧
        0 ≤ (Claudeml.combined_weights hd ht).2.1 ∧
        0 ≤ (Claudeml.combined_weights hd ht).2.2 ∧
        (Claudeml.combined_weights hd ht).1 + (Claudeml.combined_weights hd ht).2.1 +
          (Claudeml.combined_weights hd ht).2.2 = 1)) ∧
    (∀ h d t : Stridescore.Rating,
      (min h.mu (min d.mu t.mu) ≤ (Stridescore.get_combined_rating_core h d t true true).mu ∧
        (Stridescore.get_combined_rating_core h d t true true).mu ≤
          max h.mu (max d.mu t.mu)) ∧
      (min h.sigma (min d.sigma t.sigma) ≤
          (Stridescore.get_combined_rating_core h d t true true).sigma ∧
        (Stridescore.get_combined_rating_core h d t true true).sigma ≤
          max h.sigma (max d.sigma t.sigma)) ∧
      (min h.mu d.mu ≤ (Stridescore.get_combined_rating_core h d t true false).mu ∧
        (Stridescore.get_combined_rating_core h d t true false).mu ≤ max h.mu d.mu) ∧
      (min h.sigma d.sigma ≤ (Stridescore.get_combined_rating_core h d t true false).sigma ∧
        (Stridescore.get_combined_rating_core h d t true false).sigma ≤
          max h.sigma d.sigma) ∧
      (min h.mu t.mu ≤ (Stridescore.get_combined_rating_core h d t false true).mu ∧
        (Stridescore.get_combined_rating_core h d t false true).mu ≤ max h.mu t.mu) ∧
      (min h.sigma t.sigma ≤ (Stridescore.get_combined_rating_core h d t false true).sigma ∧
        (Stridescore.get_combined_rating_core h d t false true).sigma ≤
          max h.sigma t.sigma) ∧
      ((Stridescore.get_combined_rating_core h d t false false).mu = h.mu ∧
        (Stridescore.get_combined_rating_core h d t false false).sigma = h.sigma)) ∧
    (∀ hmu hsig dmu dsig tmu tsig : ℝ,
      (min hmu (min dmu tmu) ≤
          (Claudeml.calculate_combined_rating_core hmu hsig dmu dsig tmu tsig true true).1 ∧
        (Claudeml.calculate_combined_rating_core hmu hsig dmu dsig tmu tsig true true).1 ≤
          max hmu (max dmu tmu)) ∧
      (min hsig (min dsig tsig) ≤
          (Claudeml.calculate_combined_rating_core hmu hsig dmu dsig tmu tsig true true).2 ∧
        (Claudeml.calculate_combined_rating_core hmu hsig dmu dsig tmu tsig true true).2 ≤
          max hsig (max dsig tsig)) ∧
      (min hmu dmu ≤
          (Claudeml.calculate_combined_rating_core hmu hsig dmu dsig tmu tsig true false).1 ∧
        (Claudeml.calculate_combined_rating_core hmu hsig dmu dsig tmu tsig true false).1 ≤
          max hmu dmu) ∧
      (min hsig dsig ≤
          (Claudeml.calculate_combined_rating_core hmu hsig dmu dsig tmu tsig true false).2 ∧
        (Claudeml.calculate_combined_rating_core hmu hsig dmu dsig tmu tsig true false).2 ≤
          max hsig dsig) ∧
      (min hmu tmu ≤
          (Claudeml.calculate_combined_rating_core hmu hsig dmu dsig tmu tsig false true).1 ∧
        (Claudeml.calculate_combined_rating_core hmu hsig dmu dsig tmu tsig false true).1 ≤
          max hmu tmu) ∧
      (min hsig tsig ≤
          (Claudeml.calculate_combined_rating_core hmu hsig dmu dsig tmu tsig false true).2 ∧
        (Claudeml.calculate_combined_rating_core hmu hsig dmu dsig tmu tsig false true).2 ≤
          max hsig tsig) ∧
      ((Claudeml.calculate_combined_rating_core hmu hsig dmu dsig tmu tsig false false).1
          = hmu ∧
        (Claudeml.calculate_combined_rating_core hmu hsig dmu dsig tmu tsig false false).2
          = hsig)) := by
  refine ⟨?_, ?_, ?_⟩
  · intro hd ht
    cases hd <;> cases ht <;>
      simp only [caw_tt, caw_tf, caw_ft, caw_ff, mlw_tt, mlw_tf, mlw_ft, mlw_ff] <;>
      norm_num
  · intro h d t
    simp only [Stridescore.get_combined_rating_core, caw_tt, caw_tf, caw_ft, caw_ff]
    refine ⟨?_, ?_, ?_, ?_, ?_, ?_, ?_⟩
    · have hc := convex3 0.8 0.1 0.1 h.mu d.mu t.mu (by norm_num) (by norm_num) (by norm_num)
        (by norm_num)
      constructor <;> linarith [hc.1, hc.2]
    · have hc := convex3 0.8 0.1 0.1 h.sigma d.sigma t.sigma (by norm_num) (by norm_num)
        (by norm_num) (by norm_num)
      constructor <;> linarith [hc.1, hc.2]
    · have hc := convex2 0.7 0.3 h.mu d.mu (by norm_num) (by norm_num) (by norm_num)
      constructor <;> linarith [hc.1, hc.2]
    · have hc := convex2 0.7 0.3 h.sigma d.sigma (by norm_num) (by norm_num) (by norm_num)
      constructor <;> linarith [hc.1, hc.2]
    · have hc := convex2 0.8 0.2 h.mu t.mu (by norm_num) (by norm_num) (by norm_num)
      constructor <;> linarith [hc.1, hc.2]
    · have hc := convex2 0.8 0.2 h.sigma t.sigma (by norm_num) (by norm_num) (by norm_num)
      constructor <;> linarith [hc.1, hc.2]
    · constructor <;> ring
  · intro hmu hsig dmu dsig tmu tsig
    simp only [Claudeml.calculate_combined_rating_core, mlw_tt, mlw_tf, mlw_ft, mlw_ff]
    refine ⟨?_, ?_, ?_, ?_, ?_, ?_, ?_⟩
    · have hc := convex3 0.6 0.25 0.15 hmu dmu tmu (by norm_num) (by norm_num) (by norm_num)
        (by norm_num)
      constructor <;> linarith [hc.1, hc.2]
    · have hc := convex3 0.6 0.25 0.15 hsig dsig tsig (by norm_num) (by norm_num)
        (by norm_num) (by norm_num)
      constructor <;> linarith [hc.1, hc.2]
    · have hc := convex2 0.7 0.3 hmu dmu (by norm_num) (by norm_num) (by norm_num)
      constructor <;> linarith [hc.1, hc.2]
    · have hc := convex2 0.7 0.3 hsig dsig (by norm_num) (by norm_num) (by norm_num)
      constructor <;> linarith [hc.1, hc.2]
    · have hc := convex2 0.8 0.2 hmu tmu (by norm_num) (by norm_num) (by norm_num)
      constructor <;> linarith [hc.1, hc.2]
    · have hc := convex2 0.8 0.2 hsig tsig (by norm_num) (by norm_num) (by norm_num)
      constructor <;> linarith [hc.1, hc.2]
    · constructor <;> ring

namespace Claudeml

lemma filterMap_congr_some {α β : Type _} (f : α → Option β) (g : α → β) :
    ∀ l : List α, (∀ a ∈ l, f a = some (g a)) → l.filterMap f = l.map g := by
  intro l
  induction l with
  | nil => intro _; rfl
  | cons a t ih =>
    intro h
    rw [List.filterMap_cons, h a (List.mem_cons_self a t), List.map_cons,
      ih (fun x hx => h x (List.mem_cons_of_mem a hx))]

lemma ratingsOf_ne_nil (st : Stores) (horses : List MLStarter) (h : horses ≠ []) :
    ratingsOf st horses ≠ [] := by
  intro hc
  exact h (List.map_eq_nil_iff.mp hc)

lemma find?_self_some (st : Stores) (horses : List MLStarter) (r : RatingsTuple)
    (hr : r ∈ ratingsOf st horses) :
    ∃ d, (ratingsOf st horses).find? (fun x => x.name == r.name) = some d := by
  have hs : ((ratingsOf st horses).find? (fun x => x.name == r.name)).isSome := by
    rw [List.find?_isSome]
    exact ⟨r, hr, by simp⟩
  exact Option.isSome_iff_exists.mp hs

lemma cwp_eq (st : Stores) (horses : List MLStarter) (h : horses ≠ []) :
    calculate_win_probabilities st horses =
      some (((ratingsOf st horses).map (oddsRowOf st horses)).mergeSort
        (fun a b => decide (b.win_probability ≤ a.win_probability))) := by
  simp only [calculate_win_probabilities, if_neg h]
  congr 1
  congr 1
  rw [List.filterMap_map]
  apply filterMap_congr_some
  intro r hr
  obtain ⟨d, hd⟩ := find?_self_some st horses r hr
  simp only [Function.comp_apply, hd, Option.map_some', oddsRowOf, Option.getD_some,
    expScore]

lemma totalExp_pos (st : Stores) (horses : List MLStarter) (h : horses ≠ []) :
    0 < totalExpOf st horses := by
  apply List.sum_pos
  · intro x hx
    simp only [List.mem_map] at hx
    obtain ⟨r, _, rfl⟩ := hx
    exact Real.exp_pos _
  · intro hc
    rcases List.map_eq_nil_iff.mp hc with hc2
    exact ratingsOf_ne_nil st horses h hc2

lemma oddsRowOf_p (st : Stores) (horses : List MLStarter) (r : RatingsTuple) :
    (oddsRowOf st horses r).win_probability =
      expScore st horses r / totalExpOf st horses := rfl

lemma oddsRowOf_odds (st : Stores) (horses : List MLStarter) (r : RatingsTuple) :
    (oddsRowOf st horses r).decimal_odds =
      if 0 < expScore st horses r / totalExpOf st horses then
        1 / (expScore st horses r / totalExpOf st horses)
      else 0 := rfl

lemma oddsRowOf_p_pos (st : Stores) (horses : List MLStarter) (r : RatingsTuple)
    (h : horses ≠ []) : 0 < (oddsRowOf st horses r).win_probability := by
  rw [oddsRowOf_p]
  exact div_pos (Real.exp_pos _) (totalExp_pos st horses h)

lemma oddsRowOf_odds_eq (st : Stores) (horses : List MLStarter) (r : RatingsTuple)
    (h : horses ≠ []) :
    (oddsRowOf st horses r).decimal_odds = 1 / (oddsRowOf st horses r).win_probability := by
  have hp := oddsRowOf_p_pos st horses r h
  rw [oddsRowOf_p] at hp
  rw [oddsRowOf_odds, oddsRowOf_p, if_pos hp]

lemma preRows_sum (st : Stores) (horses : List MLStarter) (h : horses ≠ []) :
    (((ratingsOf st horses).map (oddsRowOf st horses)).map OddsRow.win_probability).sum
      = 1 := by
  rw [List.map_map]
  have hfun : OddsRow.win_probability ∘ oddsRowOf st horses =
      fun r => expScore st horses r * (totalExpOf st horses)⁻¹ := by
    funext r
    simp [Function.comp_apply, oddsRowOf_p, div_eq_mul_inv]
  rw [hfun, List.sum_map_mul_right]
  exact mul_inv_cancel₀ (ne_of_gt (totalExp_pos st horses h))

lemma expScore_mono (st : Stores) (horses : List MLStarter) (r₁ r₂ : RatingsTuple)
    (hm : r₁.combined_mu ≤ r₂.combined_mu) :
    expScore st horses r₁ ≤ expScore st horses r₂ := by
  apply Real.exp_le_exp.mpr
  apply div_le_div_of_nonneg_right (sub_le_sub_right hm _)
  norm_num [BETA]

lemma odds_antitone (st : Stores) (horses : List MLStarter) (r₁ r₂ : RatingsTuple)
    (h : horses ≠ []) (hm : r₁.combined_mu ≤ r₂.combined_mu) :
    (oddsRowOf st horses r₁).win_probability ≤ (oddsRowOf st horses r₂).win_probability ∧
      (oddsRowOf st horses r₂).decimal_odds ≤ (oddsRowOf st horses r₁).decimal_odds := by
  have hT := totalExp_pos st horses h
  have hple : (oddsRowOf st horses r₁).win_probability ≤
      (oddsRowOf st horses r₂).win_probability := by
    rw [oddsRowOf_p, oddsRowOf_p]
    exact div_le_div_of_nonneg_right (expScore_mono st horses r₁ r₂ hm) (le_of_lt hT)
  refine ⟨hple, ?_⟩
  rw [oddsRowOf_odds_eq st horses r₁ h, oddsRowOf_odds_eq st horses r₂ h]
  exact one_div_le_one_div_of_le (oddsRowOf_p_pos st horses r₁ h) hple

lemma rows_sorted (l : List OddsRow) :
    List.Sorted (fun a b : OddsRow => b.win_probability ≤ a.win_probability)
      (l.mergeSort (fun a b => decide (b.win_probability ≤ a.win_probability))) := by
  have htrans : ∀ a b c : OddsRow,
      decide (b.win_probability ≤ a.win_probability) = true →
      decide (c.win_probability ≤ b.win_probability) = true →
      decide (c.win_probability ≤ a.win_probability) = true := by
    intro a b c hab hbc
    simp only [decide_eq_true_eq] at hab hbc ⊢
    exact le_trans hbc hab
  have htotal : ∀ a b : OddsRow,
      (decide (b.win_probability ≤ a.win_probability) ||
        decide (a.win_probability ≤ b.win_probability)) = true := by
    intro a b
    simp only [Bool.or_eq_true, decide_eq_true_eq]
    exact le_total b.win_probability a.win_probability
  have h := @List.sorted_mergeSort OddsRow
    (fun a b => decide (b.win_probability ≤ a.win_probability)) htrans htotal l
  exact h.imp (fun hab => of_decide_eq_true hab)

end Claudeml

/-- Claim C4: for every non-empty starter list, the odds computation returns
rows whose win probabilities sum exactly to 1 (in real arithmetic), each
row's decimal odds equal 1 / win probability (all probabilities positive),
the output is sorted by descending win probability, and a starter with a
higher fused mu gets a higher win probability and lower (or equal) decimal
odds — in particular the highest fused mu has the lowest decimal odds. -/
theorem claim_C4_odds_normalisation (st : Claudeml.Stores)
    (horses : List Claudeml.MLStarter) (hne : horses ≠ []) :
    ∃ rows, Claudeml.calculate_win_probabilities st horses = some rows ∧
      (rows.map Claudeml.OddsRow.win_probability).sum = 1 ∧
      (∀ row ∈ rows, 0 < row.win_probability ∧
        row.decimal_odds = 1 / row.win_probability) ∧
      List.Sorted (fun a b : Claudeml.OddsRow =>
        b.win_probability ≤ a.win_probability) rows ∧
      (∀ r₁ ∈ Claudeml.ratingsOf st horses, ∀ r₂ ∈ Claudeml.ratingsOf st horses,
        r₁.combined_mu ≤ r₂.combined_mu →
          (Claudeml.oddsRowOf st horses r₁).win_probability ≤
              (Claudeml.oddsRowOf st horses r₂).win_probability ∧
            (Claudeml.oddsRowOf st horses r₂).decimal_odds ≤
              (Claudeml.oddsRowOf st horses r₁).decimal_odds ∧
            Claudeml.oddsRowOf st horses r₁ ∈ rows ∧
            Claudeml.oddsRowOf st horses r₂ ∈ rows) := by
  refine ⟨_, Claudeml.cwp_eq st horses hne, ?_, ?_, ?_, ?_⟩
  · have hperm := List.mergeSort_perm
      ((Claudeml.ratingsOf st horses).map (Claudeml.oddsRowOf st horses))
      (fun a b => decide (b.win_probability ≤ a.win_probability))
    rw [(hperm.map Claudeml.OddsRow.win_probability).sum_eq]
    exact Claudeml.preRows_sum st horses hne
  · intro row hrow
    rw [List.mem_mergeSort] at hrow
    simp only [List.mem_map] at hrow
    obtain ⟨r, _, rfl⟩ := hrow
    exact ⟨Claudeml.oddsRowOf_p_pos st horses r hne,
      Claudeml.oddsRowOf_odds_eq st horses r hne⟩
  · exact Claudeml.rows_sorted _
  · intro r₁ hr₁ r₂ hr₂ hm
    have hmono := Claudeml.odds_antitone st horses r₁ r₂ hne hm
    refine ⟨hmono.1, hmono.2, ?_, ?_⟩
    · rw [List.mem_mergeSort]
      exact List.mem_map_of_mem _ hr₁
    · rw [List.mem_mergeSort]
      exact List.mem_map_of_mem _ hr₂

/-- Witness for C4: the single-starter field ["a"] on empty stores. -/
theorem claim_C4_odds_normalisation_witness :
    ∃ rows, Claudeml.calculate_win_probabilities Claudeml.emptyStores
        [⟨"a", none, none⟩] = some rows ∧
      (rows.map Claudeml.OddsRow.win_probability).sum = 1 ∧
      (∀ row ∈ rows, 0 < row.win_probability ∧
        row.decimal_odds = 1 / row.win_probability) ∧
      List.Sorted (fun a b : Claudeml.OddsRow =>
        b.win_probability ≤ a.win_probability) rows ∧
      (∀ r₁ ∈ Claudeml.ratingsOf Claudeml.emptyStores [⟨"a", none, none⟩],
        ∀ r₂ ∈ Claudeml.ratingsOf Claudeml.emptyStores [⟨"a", none, none⟩],
        r₁.combined_mu ≤ r₂.combined_mu →
          (Claudeml.oddsRowOf Claudeml.emptyStores [⟨"a", none, none⟩] r₁).win_probability ≤
              (Claudeml.oddsRowOf Claudeml.emptyStores [⟨"a", none, none⟩]
                r₂).win_probability ∧
            (Claudeml.oddsRowOf Claudeml.emptyStores [⟨"a", none, none⟩] r₂).decimal_odds ≤
              (Claudeml.oddsRowOf Claudeml.emptyStores [⟨"a", none, none⟩]
                r₁).decimal_odds ∧
            Claudeml.oddsRowOf Claudeml.emptyStores [⟨"a", none, none⟩] r₁ ∈ rows ∧
            Claudeml.oddsRowOf Claudeml.emptyStores [⟨"a", none, none⟩] r₂ ∈ rows) :=
  claim_C4_odds_normalisation Claudeml.emptyStores [⟨"a", none, none⟩] (by simp)

/-- Claim C9: a horse, driver or trainer name not present in either ratings
database is treated as the default belief mu = 1000, sigma = 333 (within
0.5 of the spec's ≈333.33), and the odds computation never fails on any
non-empty starter list. -/
theorem claim_C9_unknown_entity_defaults :
    (∀ st : Claudeml.Stores, ∀ n : String,
      Claudeml.mlLookup st.pacers.player_ratings n = none →
      Claudeml.mlLookup st.trotters.player_ratings n = none →
      Claudeml.get_horse_rating st n = (1000, 333) ∧
        |(Claudeml.get_horse_rating st n).2 - 333.33| < 1 / 2) ∧
    (∀ st : Claudeml.Stores,
      Claudeml.get_driver_rating st none = (1000, 333) ∧
        Claudeml.get_trainer_rating st none = (1000, 333)) ∧
    (∀ st : Claudeml.Stores, ∀ n : String,
      Claudeml.mlLookup st.pacers.driver_ratings n = none →
      Claudeml.mlLookup st.trotters.driver_ratings n = none →
      Claudeml.get_driver_rating st (some n) = (1000, 333)) ∧
    (∀ st : Claudeml.Stores, ∀ n : String,
      Claudeml.mlLookup st.pacers.trainer_ratings n = none →
      Claudeml.mlLookup st.trotters.trainer_ratings n = none →
      Claudeml.get_trainer_rating st (some n) = (1000, 333)) ∧
    (∀ st : Claudeml.Stores, ∀ horses : List Claudeml.MLStarter, horses ≠ [] →
      ∃ rows, Claudeml.calculate_win_probabilities st horses = some rows) := by
  refine ⟨?_, ?_, ?_, ?_, ?_⟩
  · intro st n h1 h2
    have hval : Claudeml.get_horse_rating st n = (1000, 333) := by
      simp only [Claudeml.get_horse_rating, h1, h2]
    refine ⟨hval, ?_⟩
    rw [hval]
    rw [abs_sub_lt_iff]
    norm_num
  · intro st
    exact ⟨rfl, rfl⟩
  · intro st n h1 h2
    simp only [Claudeml.get_driver_rating]
    split_ifs with hemp
    · rfl
    · simp only [h1, h2]
  · intro st n h1 h2
    simp only [Claudeml.get_trainer_rating]
    split_ifs with hemp
    · rfl
    · simp only [h1, h2]
  · intro st horses h
    exact ⟨_, Claudeml.cwp_eq st horses h⟩

/-- Witness for C9: the unknown name "x" on empty stores and the single
starter field [("x", "d", "t")]. -/
theorem claim_C9_unknown_entity_defaults_witness :
    Claudeml.get_horse_rating Claudeml.emptyStores "x" = (1000, 333) ∧
    |(Claudeml.get_horse_rating Claudeml.emptyStores "x").2 - 333.33| < 1 / 2 ∧
    Claudeml.get_driver_rating Claudeml.emptyStores (some "x") = (1000, 333) ∧
    Claudeml.get_trainer_rating Claudeml.emptyStores (some "x") = (1000, 333) ∧
    ∃ rows, Claudeml.calculate_win_probabilities Claudeml.emptyStores
      [⟨"x", some "d", some "t"⟩] = some rows :=
  ⟨(claim_C9_unknown_entity_defaults.1 Claudeml.emptyStores "x" rfl rfl).1,
    (claim_C9_unknown_entity_defaults.1 Claudeml.emptyStores "x" rfl rfl).2,
    claim_C9_unknown_entity_defaults.2.2.1 Claudeml.emptyStores "x" rfl rfl,
    claim_C9_unknown_entity_defaults.2.2.2.1 Claudeml.emptyStores "x" rfl rfl,
    claim_C9_unknown_entity_defaults.2.2.2.2 Claudeml.emptyStores
      [⟨"x", some "d", some "t"⟩] (by simp)⟩

/-- Claim C7: a non-qualifier race in which fewer than 2 valid starters
remain after filtering scratches and non-integer finishes is aborted
entirely — the store is returned unchanged (no belief, history or audit
write) — and reported as a skipped race (a warning), not an error. -/
theorem claim_C7_thin_field_skips_race
    (rate : List Stridescore.Rating → List ℤ → Option (List Stridescore.Rating))
    (race : Stridescore.Race) (db : Stridescore.DB)
    (_hq : race.is_qualifier = false)
    (hv : (Stridescore.valid_horses race).length < 2) :
    Stridescore.process_parsed_race rate race db =
      (Stridescore.ProcOutcome.skippedFewValid, db) := by
  simp only [Stridescore.process_parsed_race, if_pos hv]

/-- Witness for C7: a two-starter race with one valid finisher on the empty
store. -/
theorem claim_C7_thin_field_skips_race_witness :
    Stridescore.exThinRace.is_qualifier = false ∧
    (Stridescore.valid_horses Stridescore.exThinRace).length < 2 ∧
    Stridescore.process_parsed_race Stridescore.rateNone Stridescore.exThinRace
        Stridescore.emptyDB =
      (Stridescore.ProcOutcome.skippedFewValid, Stridescore.emptyDB) :=
  ⟨rfl, by decide,
    claim_C7_thin_field_skips_race Stridescore.rateNone Stridescore.exThinRace
      Stridescore.emptyDB rfl (by decide)⟩

/-- Counterexample to claim C8 as stated: in a qualifier race where no
starter carries a valid integer finishing position, processing skips the
race before the qualifier branch, so the appearing horse "a" is neither
created nor refreshed — its decay clock does not reset on mere
appearance. -/
theorem claim_C8_counterexample_dnf_qualifier :
    Stridescore.process_parsed_race Stridescore.rateNone Stridescore.exDnfQualifierRace
        Stridescore.emptyDB =
      (Stridescore.ProcOutcome.skippedFewValid, Stridescore.emptyDB) ∧
    Stridescore.tableLookup
      (Stridescore.process_parsed_race Stridescore.rateNone Stridescore.exDnfQualifierRace
        Stridescore.emptyDB).2.player_ratings "a" = none := by
  have hv : (Stridescore.valid_horses Stridescore.exDnfQualifierRace).length < 2 := by decide
  have heq : Stridescore.process_parsed_race Stridescore.rateNone
      Stridescore.exDnfQualifierRace Stridescore.emptyDB =
      (Stridescore.ProcOutcome.skippedFewValid, Stridescore.emptyDB) := by
    simp only [Stridescore.process_parsed_race, if_pos hv]
  exact ⟨heq, by rw [heq]; rfl⟩

namespace Stridescore

lemma tableLookup_updateWhere_self (t : List (String × PlayerRow)) (n : String)
    (row : PlayerRow) (h : (tableLookup t n).isSome) :
    tableLookup (updateWhere t n row) n = some row := by
  induction t with
  | nil => simp [tableLookup] at h
  | cons p rest ih =>
    obtain ⟨k, v⟩ := p
    by_cases hk : k = n
    · simp [updateWhere, tableLookup, hk]
    · simp only [updateWhere, if_neg hk, tableLookup]
      apply ih
      simpa [tableLookup, if_neg hk] using h

lemma tableLookup_updateWhere_ne (t : List (String × PlayerRow)) (n : String)
    (row : PlayerRow) (k : String) (hk : k ≠ n) :
    tableLookup (updateWhere t n row) k = tableLookup t k := by
  induction t with
  | nil => rfl
  | cons p rest ih =>
    obtain ⟨k', v⟩ := p
    by_cases hk' : k' = n
    · have hkk : ¬ k' = k := fun hc => hk (hc ▸ hk')
      simp only [updateWhere, if_pos hk', tableLookup]
      rw [if_neg hkk, if_neg hkk, ih]
    · simp only [updateWhere, if_neg hk', tableLookup]
      by_cases hkk : k' = k
      · rw [if_pos hkk, if_pos hkk]
      · rw [if_neg hkk, if_neg hkk, ih]

lemma tableLookup_append_left (t l : List (String × PlayerRow)) (k : String)
    (r : PlayerRow) (h : tableLookup t k = some r) :
    tableLookup (t ++ l) k = some r := by
  induction t with
  | nil => simp [tableLookup] at h
  | cons p rest ih =>
    obtain ⟨k', v⟩ := p
    by_cases hk : k' = k
    · simp only [tableLookup, if_pos hk] at h
      simp only [List.cons_append, tableLookup, if_pos hk]
      exact h
    · simp only [tableLookup, if_neg hk] at h
      simp only [List.cons_append, tableLookup, if_neg hk]
      exact ih h

lemma tableLookup_append_right (t l : List (String × PlayerRow)) (k : String)
    (h : tableLookup t k = none) :
    tableLookup (t ++ l) k = tableLookup l k := by
  induction t with
  | nil => rfl
  | cons p rest ih =>
    obtain ⟨k', v⟩ := p
    by_cases hk : k' = k
    · simp [tableLookup, if_pos hk] at h
    · simp only [tableLookup, if_neg hk] at h
      simp only [List.cons_append, tableLookup, if_neg hk]
      exact ih h

lemma tableLookup_insertOrIgnore_self (t : List (String × PlayerRow)) (n : String)
    (row : PlayerRow) (h : tableLookup t n = none) :
    tableLookup (insertOrIgnore t n row) n = some row := by
  unfold insertOrIgnore
  rw [h]
  simp only [Option.isSome_none, Bool.false_eq_true, if_false]
  rw [tableLookup_append_right t _ n h]
  simp [tableLookup]

lemma tableLookup_insertOrIgnore_pres (t : List (String × PlayerRow)) (n : String)
    (row : PlayerRow) (k : String) (r : PlayerRow) (h : tableLookup t k = some r) :
    tableLookup (insertOrIgnore t n row) k = some r := by
  unfold insertOrIgnore
  split_ifs
  · exact h
  · exact tableLookup_append_left t _ k r h

lemma refreshedIn_updateWhere (t : List (String × PlayerRow)) (n : String)
    (row : PlayerRow) (k : String) (race_date : ℤ) (race_track : String)
    (hrow : goodRow race_date race_track row) (h : refreshedIn t k race_date race_track) :
    refreshedIn (updateWhere t n row) k race_date race_track := by
  obtain ⟨r0, hl, hg⟩ := h
  by_cases hk : k = n
  · subst hk
    exact ⟨row, tableLookup_updateWhere_self t k row (by rw [hl]; rfl), hrow⟩
  · exact ⟨r0, by rw [tableLookup_updateWhere_ne t n row k hk]; exact hl, hg⟩

lemma refreshedIn_insertOrIgnore (t : List (String × PlayerRow)) (n : String)
    (row : PlayerRow) (k : String) (race_date : ℤ) (race_track : String)
    (h : refreshedIn t k race_date race_track) :
    refreshedIn (insertOrIgnore t n row) k race_date race_track := by
  obtain ⟨r0, hl, hg⟩ := h
  exact ⟨r0, tableLookup_insertOrIgnore_pres t n row k r0 hl, hg⟩

lemma refreshedIn_insertOrIgnore_self (t : List (String × PlayerRow)) (n : String)
    (race_date : ℤ) (race_track : String) (h : tableLookup t n = none) :
    refreshedIn (insertOrIgnore t n (defaultRow race_date (some race_track))) n
      race_date race_track :=
  ⟨defaultRow race_date (some race_track), tableLookup_insertOrIgnore_self t n _ h,
    rfl, rfl⟩

end Stridescore

namespace Stridescore

lemma setPersonTable_player (db : DB) (pk : PersonKind) (t : List (String × PlayerRow)) :
    (setPersonTable db pk t).player_ratings = db.player_ratings := by
  cases pk <;> rfl

lemma setPersonTable_own (db : DB) (pk : PersonKind) (t : List (String × PlayerRow)) :
    personTable (setPersonTable db pk t) pk = t := by
  cases pk <;> rfl

lemma setPersonTable_driver_of_trainer (db : DB) (t : List (String × PlayerRow)) :
    (setPersonTable db .trainer t).driver_ratings = db.driver_ratings := rfl

lemma setPersonTable_trainer_of_driver (db : DB) (t : List (String × PlayerRow)) :
    (setPersonTable db .driver t).trainer_ratings = db.trainer_ratings := rfl

lemma get_player_some_lookup (db : DB) (n : String) (date : ℤ) (r : Rating)
    (h : get_player_rating db n date = some r) :
    (tableLookup db.player_ratings n).isSome := by
  unfold get_player_rating at h
  cases hl : tableLookup db.player_ratings n with
  | none => rw [hl] at h; simp at h
  | some row => rfl

lemma get_player_none_lookup (db : DB) (n : String) (date : ℤ)
    (h : get_player_rating db n date = none) :
    tableLookup db.player_ratings n = none := by
  unfold get_player_rating at h
  cases hl : tableLookup db.player_ratings n with
  | none => rfl
  | some row => rw [hl] at h; simp at h

lemma get_person_some_lookup (db : DB) (n : String) (pk : PersonKind) (date : ℤ) (r : Rating)
    (h : get_person_rating db n pk date = some r) :
    (tableLookup (personTable db pk) n).isSome := by
  unfold get_person_rating at h
  by_cases hn : n = ""
  · rw [if_pos hn] at h; simp at h
  · rw [if_neg hn] at h
    cases hl : tableLookup (personTable db pk) n with
    | none => rw [hl] at h; simp at h
    | some row => rfl

lemma get_person_none_lookup (db : DB) (n : String) (pk : PersonKind) (date : ℤ)
    (hn : ¬ n = "") (h : get_person_rating db n pk date = none) :
    tableLookup (personTable db pk) n = none := by
  unfold get_person_rating at h
  rw [if_neg hn] at h
  cases hl : tableLookup (personTable db pk) n with
  | none => rfl
  | some row => rw [hl] at h; simp at h

lemma qrh_player_eq (date : ℤ) (track : String) (db : DB) (n : String) :
    (qualifier_refresh_horse date track db n).player_ratings =
      match get_player_rating db n date with
      | some rating =>
        updateWhere db.player_ratings n ⟨rating.mu, rating.sigma, date, some track⟩
      | none => insertOrIgnore db.player_ratings n (defaultRow date (some track)) := by
  unfold qualifier_refresh_horse
  cases get_player_rating db n date <;> rfl

lemma qrh_driver (date : ℤ) (track : String) (db : DB) (n : String) :
    (qualifier_refresh_horse date track db n).driver_ratings = db.driver_ratings := by
  unfold qualifier_refresh_horse
  cases get_player_rating db n date <;> rfl

lemma qrh_trainer (date : ℤ) (track : String) (db : DB) (n : String) :
    (qualifier_refresh_horse date track db n).trainer_ratings = db.trainer_ratings := by
  unfold qualifier_refresh_horse
  cases get_player_rating db n date <;> rfl

lemma qrh_pres (date : ℤ) (track : String) (db : DB) (n k : String)
    (hp : refreshedIn db.player_ratings k date track) :
    refreshedIn (qualifier_refresh_horse date track db n).player_ratings k date track := by
  rw [qrh_player_eq]
  cases hg : get_player_rating db n date with
  | some rating => exact refreshedIn_updateWhere _ _ _ _ _ _ ⟨rfl, rfl⟩ hp
  | none => exact refreshedIn_insertOrIgnore _ _ _ _ _ _ hp

lemma qrh_estab (date : ℤ) (track : String) (db : DB) (n : String) :
    refreshedIn (qualifier_refresh_horse date track db n).player_ratings n date track := by
  rw [qrh_player_eq]
  cases hg : get_player_rating db n date with
  | some rating =>
    exact ⟨_, tableLookup_updateWhere_self _ _ _ (get_player_some_lookup db n date rating hg),
      rfl, rfl⟩
  | none =>
    exact refreshedIn_insertOrIgnore_self _ _ _ _ (get_player_none_lookup db n date hg)

lemma qrp_player_eq (date : ℤ) (track : String) (db : DB) (pk : PersonKind)
    (name : Option String) :
    (qualifier_refresh_person date track db pk name).player_ratings = db.player_ratings := by
  unfold qualifier_refresh_person
  cases name with
  | none => rfl
  | some n =>
    dsimp only
    by_cases hn : n = ""
    · rw [if_pos hn]
    · rw [if_neg hn]
      cases hg : get_person_rating db n pk date with
      | some r => simp only [update_person_rating, setPersonTable_player]
      | none => simp only [add_person, setPersonTable_player]

lemma qrp_driver_of_trainer (date : ℤ) (track : String) (db : DB) (name : Option String) :
    (qualifier_refresh_person date track db .trainer name).driver_ratings =
      db.driver_ratings := by
  unfold qualifier_refresh_person
  cases name with
  | none => rfl
  | some n =>
    dsimp only
    by_cases hn : n = ""
    · rw [if_pos hn]
    · rw [if_neg hn]
      cases hg : get_person_rating db n .trainer date with
      | some r => simp only [update_person_rating, setPersonTable_driver_of_trainer]
      | none => simp only [add_person, setPersonTable_driver_of_trainer]

lemma qrp_trainer_of_driver (date : ℤ) (track : String) (db : DB) (name : Option String) :
    (qualifier_refresh_person date track db .driver name).trainer_ratings =
      db.trainer_ratings := by
  unfold qualifier_refresh_person
  cases name with
  | none => rfl
  | some n =>
    dsimp only
    by_cases hn : n = ""
    · rw [if_pos hn]
    · rw [if_neg hn]
      cases hg : get_person_rating db n .driver date with
      | some r => simp only [update_person_rating, setPersonTable_trainer_of_driver]
      | none => simp only [add_person, setPersonTable_trainer_of_driver]

lemma qrp_pres_own (date : ℤ) (track : String) (db : DB) (pk : PersonKind)
    (name : Option String) (k : String)
    (hp : refreshedIn (personTable db pk) k date track) :
    refreshedIn (personTable (qualifier_refresh_person date track db pk name) pk) k
      date track := by
  unfold qualifier_refresh_person
  cases name with
  | none => exact hp
  | some n =>
    dsimp only
    by_cases hn : n = ""
    · rw [if_pos hn]; exact hp
    · rw [if_neg hn]
      cases hg : get_person_rating db n pk date with
      | some r =>
        simp only [update_person_rating, setPersonTable_own]
        exact refreshedIn_updateWhere _ _ _ _ _ _ ⟨rfl, rfl⟩ hp
      | none =>
        simp only [add_person, setPersonTable_own]
        exact refreshedIn_insertOrIgnore _ _ _ _ _ _ hp

lemma qrp_estab (date : ℤ) (track : String) (db : DB) (pk : PersonKind) (n : String)
    (hn : ¬ n = "") :
    refreshedIn (personTable (qualifier_refresh_person date track db pk (some n)) pk) n
      date track := by
  unfold qualifier_refresh_person
  dsimp only
  rw [if_neg hn]
  cases hg : get_person_rating db n pk date with
  | some r =>
    simp only [update_person_rating, setPersonTable_own]
    exact ⟨_, tableLookup_updateWhere_self _ _ _ (get_person_some_lookup db n pk date r hg),
      rfl, rfl⟩
  | none =>
    simp only [add_person, setPersonTable_own]
    exact refreshedIn_insertOrIgnore_self _ _ _ _ (get_person_none_lookup db n pk date hn hg)

lemma qstep_player_pres (date : ℤ) (track : String) (db : DB) (h : HorseInfo) (k : String)
    (hp : refreshedIn db.player_ratings k date track) :
    refreshedIn (qualifier_step date track db h).player_ratings k date track := by
  simp only [qualifier_step]
  by_cases hs : h.is_scratched = true
  · rw [if_pos hs]; exact hp
  · rw [if_neg hs]
    rw [qrp_player_eq, qrp_player_eq]
    exact qrh_pres date track db _ k hp

lemma qstep_driver_pres (date : ℤ) (track : String) (db : DB) (h : HorseInfo) (k : String)
    (hp : refreshedIn db.driver_ratings k date track) :
    refreshedIn (qualifier_step date track db h).driver_ratings k date track := by
  simp only [qualifier_step]
  by_cases hs : h.is_scratched = true
  · rw [if_pos hs]; exact hp
  · rw [if_neg hs]
    rw [qrp_driver_of_trainer]
    have hbase : refreshedIn
        (personTable (qualifier_refresh_horse date track db (pyLower h.horse_name)) .driver) k
        date track := by
      show refreshedIn (qualifier_refresh_horse date track db (pyLower h.horse_name)).driver_ratings
        k date track
      rw [qrh_driver]
      exact hp
    exact qrp_pres_own date track _ .driver h.driver_name k hbase

lemma qstep_trainer_pres (date : ℤ) (track : String) (db : DB) (h : HorseInfo) (k : String)
    (hp : refreshedIn db.trainer_ratings k date track) :
    refreshedIn (qualifier_step date track db h).trainer_ratings k date track := by
  simp only [qualifier_step]
  by_cases hs : h.is_scratched = true
  · rw [if_pos hs]; exact hp
  · rw [if_neg hs]
    have hbase : refreshedIn
        (personTable (qualifier_refresh_person date track
          (qualifier_refresh_horse date track db (pyLower h.horse_name)) .driver
          h.driver_name) .trainer) k date track := by
      show refreshedIn (qualifier_refresh_person date track
        (qualifier_refresh_horse date track db (pyLower h.horse_name)) .driver
        h.driver_name).trainer_ratings k date track
      rw [qrp_trainer_of_driver, qrh_trainer]
      exact hp
    exact qrp_pres_own date track _ .trainer h.trainer_name k hbase

lemma qstep_estab (date : ℤ) (track : String) (db : DB) (h : HorseInfo)
    (hs : h.is_scratched = false) :
    refreshedIn (qualifier_step date track db h).player_ratings (pyLower h.horse_name)
        date track ∧
      (∀ dn, h.driver_name = some dn → ¬ dn = "" →
        refreshedIn (qualifier_step date track db h).driver_ratings dn date track) ∧
      (∀ tn, h.trainer_name = some tn → ¬ tn = "" →
        refreshedIn (qualifier_step date track db h).trainer_ratings tn date track) := by
  have hs' : ¬ h.is_scratched = true := by rw [hs]; exact Bool.false_ne_true
  simp only [qualifier_step, if_neg hs']
  refine ⟨?_, ?_, ?_⟩
  · rw [qrp_player_eq, qrp_player_eq]
    exact qrh_estab date track db (pyLower h.horse_name)
  · intro dn hdn hne
    rw [qrp_driver_of_trainer, hdn]
    exact qrp_estab date track _ .driver dn hne
  · intro tn htn hne
    rw [htn]
    exact qrp_estab date track _ .trainer tn hne

lemma qfold_player_pres (date : ℤ) (track : String) :
    ∀ (l : List HorseInfo) (db : DB) (k : String),
      refreshedIn db.player_ratings k date track →
      refreshedIn ((l.foldl (qualifier_step date track) db)).player_ratings k date track := by
  intro l
  induction l with
  | nil => intro db k hp; exact hp
  | cons h0 rest ih =>
    intro db k hp
    exact ih _ k (qstep_player_pres date track db h0 k hp)

lemma qfold_driver_pres (date : ℤ) (track : String) :
    ∀ (l : List HorseInfo) (db : DB) (k : String),
      refreshedIn db.driver_ratings k date track →
      refreshedIn ((l.foldl (qualifier_step date track) db)).driver_ratings k date track := by
  intro l
  induction l with
  | nil => intro db k hp; exact hp
  | cons h0 rest ih =>
    intro db k hp
    exact ih _ k (qstep_driver_pres date track db h0 k hp)

lemma qfold_trainer_pres (date : ℤ) (track : String) :
    ∀ (l : List HorseInfo) (db : DB) (k : String),
      refreshedIn db.trainer_ratings k date track →
      refreshedIn ((l.foldl (qualifier_step date track) db)).trainer_ratings k date track := by
  intro l
  induction l with
  | nil => intro db k hp; exact hp
  | cons h0 rest ih =>
    intro db k hp
    exact ih _ k (qstep_trainer_pres date track db h0 k hp)

lemma qfold_estab (date : ℤ) (track : String) :
    ∀ (l : List HorseInfo) (db : DB), ∀ h ∈ l, h.is_scratched = false →
      refreshedIn ((l.foldl (qualifier_step date track) db)).player_ratings
          (pyLower h.horse_name) date track ∧
        (∀ dn, h.driver_name = some dn → ¬ dn = "" →
          refreshedIn ((l.foldl (qualifier_step date track) db)).driver_ratings dn
            date track) ∧
        (∀ tn, h.trainer_name = some tn → ¬ tn = "" →
          refreshedIn ((l.foldl (qualifier_step date track) db)).trainer_ratings tn
            date track) := by
  intro l
  induction l with
  | nil => intro db h hmem; exact absurd hmem (List.not_mem_nil h)
  | cons h0 rest ih =>
    intro db h hmem hsc
    rcases List.mem_cons.mp hmem with heq | hmem'
    · subst heq
      have he := qstep_estab date track db h hsc
      simp only [List.foldl_cons]
      refine ⟨qfold_player_pres date track rest _ _ he.1, ?_, ?_⟩
      · intro dn hdn hne
        exact qfold_driver_pres date track rest _ dn (he.2.1 dn hdn hne)
      · intro tn htn hne
        exact qfold_trainer_pres date track rest _ tn (he.2.2 tn htn hne)
    · simp only [List.foldl_cons]
      exact ih _ h hmem' hsc

end Stridescore

/-- Claim C8 (amended): for a qualifier race in which at least 2 starters
carry a valid integer finishing position, every non-scratched starter's
horse — and, when a non-empty name is given, its driver and trainer — is
read-or-created with last_played/last_track rewritten to the race's date
and venue. -/
theorem claim_C8_amended_qualifier_refresh
    (rate : List Stridescore.Rating → List ℤ → Option (List Stridescore.Rating))
    (race : Stridescore.Race) (db : Stridescore.DB)
    (hq : race.is_qualifier = true)
    (hv : 2 ≤ (Stridescore.valid_horses race).length) :
    ∀ h ∈ race.horses, h.is_scratched = false →
      Stridescore.refreshedIn
          (Stridescore.process_parsed_race rate race db).2.player_ratings
          (Stridescore.pyLower h.horse_name) race.date race.track ∧
        (∀ dn, h.driver_name = some dn → ¬ dn = "" →
          Stridescore.refreshedIn
            (Stridescore.process_parsed_race rate race db).2.driver_ratings dn
            race.date race.track) ∧
        (∀ tn, h.trainer_name = some tn → ¬ tn = "" →
          Stridescore.refreshedIn
            (Stridescore.process_parsed_race rate race db).2.trainer_ratings tn
            race.date race.track) := by
  have hproc : Stridescore.process_parsed_race rate race db =
      (Stridescore.ProcOutcome.qualifierProcessed, Stridescore.qualifier_phase race db) := by
    simp only [Stridescore.process_parsed_race, if_neg (not_lt.mpr hv), hq, if_true]
  rw [hproc]
  intro h hmem hsc
  exact Stridescore.qfold_estab race.date race.track race.horses db h hmem hsc

/-- Witness for the amended C8: the qualifier race on day 100 whose winner
"a" names driver "d" and trainer "u", on the empty store. -/
theorem claim_C8_amended_qualifier_refresh_witness :
    Stridescore.refreshedIn
        (Stridescore.process_parsed_race Stridescore.rateNone Stridescore.exQualifierRace
          Stridescore.emptyDB).2.player_ratings "a" 100 "t" ∧
      Stridescore.refreshedIn
        (Stridescore.process_parsed_race Stridescore.rateNone Stridescore.exQualifierRace
          Stridescore.emptyDB).2.driver_ratings "d" 100 "t" ∧
      Stridescore.refreshedIn
        (Stridescore.process_parsed_race Stridescore.rateNone Stridescore.exQualifierRace
          Stridescore.emptyDB).2.trainer_ratings "u" 100 "t" := by
  have hlow : Stridescore.pyLower "a" = "a" := by decide
  have happ := claim_C8_amended_qualifier_refresh Stridescore.rateNone
    Stridescore.exQualifierRace Stridescore.emptyDB rfl (by decide)
    ⟨"a", .pos 1, false, some "d", some "u"⟩ (by decide) rfl
  refine ⟨?_, ?_, ?_⟩
  · have h1 := happ.1
    simp only [Stridescore.exQualifierRace, hlow] at h1
    exact h1
  · have h2 := happ.2.1 "d" rfl (by decide)
    simp only [Stridescore.exQualifierRace] at h2
    exact h2
  · have h3 := happ.2.2 "u" rfl (by decide)
    simp only [Stridescore.exQualifierRace] at h3
    exact h3

namespace Stridescore

lemma decay_100_eval :
    calculate_rating_decay 1000 100 = 1000 * (1 - Real.log 73 / Real.log 338 * 0.5) := by
  simp only [calculate_rating_decay, MIN_DAYS_NO_DECAY, MAX_DAYS_DECAY, MAX_DECAY]
  rw [if_neg (by decide)]
  have hdays : (if (100 : ℤ) > 365 then (365 : ℤ) else 100) = 100 := by decide
  rw [hdays]
  have hx : max (1 : ℤ) ((100 - 28) + 1) = 73 := by decide
  rw [hx]
  rw [if_neg (by decide)]
  norm_num

lemma decay_100_lt : calculate_rating_decay 1000 100 < 1000 := by
  rw [decay_100_eval]
  have h73 : 0 < Real.log 73 := Real.log_pos (by norm_num)
  have h338 : 0 < Real.log 338 := Real.log_pos (by norm_num)
  have hr : 0 < Real.log 73 / Real.log 338 := div_pos h73 h338
  nlinarith

end Stridescore

/-- Claim C2 fails on the code: processing a qualifier race rewrites the
stored mu to its decayed value, not just last_played/last_track.  For horse
"a", stored with mu = 1000 and last active 100 days before the qualifier,
the qualifier handler fetches the decayed rating and persists it, so the
stored mu strictly drops below 1000 (sigma is unchanged and no
horse_history row is written). -/
theorem claim_C2_qualifier_writes_decayed_mu :
    ∃ row : Stridescore.PlayerRow,
      Stridescore.tableLookup
          (Stridescore.process_parsed_race Stridescore.rateNone
            Stridescore.exQualifierPlainRace Stridescore.agedDB).2.player_ratings "a"
        = some row ∧
      row.mu = Stridescore.calculate_rating_decay 1000 100 ∧
      row.mu < 1000 ∧
      row.sigma = 333.333 ∧
      (Stridescore.process_parsed_race Stridescore.rateNone
        Stridescore.exQualifierPlainRace Stridescore.agedDB).2.horse_history = [] := by
  have hproc : Stridescore.process_parsed_race Stridescore.rateNone
      Stridescore.exQualifierPlainRace Stridescore.agedDB =
      (Stridescore.ProcOutcome.qualifierProcessed,
        Stridescore.qualifier_phase Stridescore.exQualifierPlainRace Stridescore.agedDB) := by
    simp only [Stridescore.process_parsed_race]
    rw [if_neg (by decide), if_pos (by decide)]
  refine ⟨⟨Stridescore.calculate_rating_decay 1000 100, 333.333, 100, some "t"⟩, ?_,
    rfl, Stridescore.decay_100_lt, rfl, ?_⟩
  · rw [hproc]
    simp [Stridescore.qualifier_phase, Stridescore.exQualifierPlainRace,
      Stridescore.qualifier_step, Stridescore.qualifier_refresh_horse,
      Stridescore.qualifier_refresh_person, Stridescore.get_player_rating,
      Stridescore.update_player_rating, Stridescore.add_horse, Stridescore.insertOrIgnore,
      Stridescore.updateWhere, Stridescore.tableLookup, Stridescore.agedDB,
      Stridescore.pyLower, Stridescore.defaultRow]
  · rw [hproc]
    simp [Stridescore.qualifier_phase, Stridescore.exQualifierPlainRace,
      Stridescore.qualifier_step, Stridescore.qualifier_refresh_horse,
      Stridescore.qualifier_refresh_person, Stridescore.get_player_rating,
      Stridescore.update_player_rating, Stridescore.add_horse, Stridescore.insertOrIgnore,
      Stridescore.updateWhere, Stridescore.tableLookup, Stridescore.agedDB,
      Stridescore.pyLower, Stridescore.defaultRow]

namespace Stridescore

lemma foldl_proj_eq {α β γ : Type _} (f : β → α → β) (g : β → γ)
    (hf : ∀ b a, g (f b a) = g b) :
    ∀ (l : List α) (b : β), g (l.foldl f b) = g b := by
  intro l
  induction l with
  | nil => intro b; rfl
  | cons a t ih => intro b; rw [List.foldl_cons, ih, hf]

lemma foldl_pred {α β : Type _} (P : β → Prop) (f : β → α → β)
    (hf : ∀ b a, P b → P (f b a)) :
    ∀ (l : List α) (b : β), P b → P (l.foldl f b) := by
  intro l
  induction l with
  | nil => intro b hb; exact hb
  | cons a t ih => intro b hb; rw [List.foldl_cons]; exact ih _ (hf b a hb)

lemma fetch_rating_driver (db : DB) (n : String) (d : ℤ) (tr : Option String) :
    (fetch_and_decay_rating db n d tr).2.driver_ratings = db.driver_ratings := by
  unfold fetch_and_decay_rating
  cases get_player_rating db n d <;> rfl

lemma fetch_rating_trainer (db : DB) (n : String) (d : ℤ) (tr : Option String) :
    (fetch_and_decay_rating db n d tr).2.trainer_ratings = db.trainer_ratings := by
  unfold fetch_and_decay_rating
  cases get_player_rating db n d <;> rfl

lemma fetch_person_player (db : DB) (n : String) (pk : PersonKind) (d : ℤ)
    (tr : Option String) :
    (fetch_and_decay_person_rating db n pk d tr).2.player_ratings = db.player_ratings := by
  unfold fetch_and_decay_person_rating
  by_cases hn : n = ""
  · rw [if_pos hn]
  · rw [if_neg hn]
    cases get_person_rating db n pk d with
    | some r => rfl
    | none => simp only [add_person, setPersonTable_player]

lemma fetch_person_trainer_of_driver (db : DB) (n : String) (d : ℤ) (tr : Option String) :
    (fetch_and_decay_person_rating db n .driver d tr).2.trainer_ratings =
      db.trainer_ratings := by
  unfold fetch_and_decay_person_rating
  by_cases hn : n = ""
  · rw [if_pos hn]
  · rw [if_neg hn]
    cases get_person_rating db n .driver d with
    | some r => rfl
    | none => simp only [add_person, setPersonTable_trainer_of_driver]

lemma fetch_person_driver_of_trainer (db : DB) (n : String) (d : ℤ) (tr : Option String) :
    (fetch_and_decay_person_rating db n .trainer d tr).2.driver_ratings =
      db.driver_ratings := by
  unfold fetch_and_decay_person_rating
  by_cases hn : n = ""
  · rw [if_pos hn]
  · rw [if_neg hn]
    cases get_person_rating db n .trainer d with
    | some r => rfl
    | none => simp only [add_person, setPersonTable_driver_of_trainer]

lemma fetch_person_own_pres (db : DB) (n : String) (pk : PersonKind) (d : ℤ)
    (tr : Option String) (k : String) (r : PlayerRow)
    (hk : tableLookup (personTable db pk) k = some r) :
    tableLookup (personTable (fetch_and_decay_person_rating db n pk d tr).2 pk) k
      = some r := by
  unfold fetch_and_decay_person_rating
  by_cases hn : n = ""
  · rw [if_pos hn]; exact hk
  · rw [if_neg hn]
    cases get_person_rating db n pk d with
    | some rr => exact hk
    | none =>
      simp only [add_person, setPersonTable_own]
      exact tableLookup_insertOrIgnore_pres _ _ _ _ _ hk

lemma store_entries_player (race : Race) (db : DB) :
    (store_entries_phase race db).player_ratings = db.player_ratings := by
  unfold store_entries_phase
  apply foldl_proj_eq
  intro b a
  rfl

lemma store_entries_driver (race : Race) (db : DB) :
    (store_entries_phase race db).driver_ratings = db.driver_ratings := by
  unfold store_entries_phase
  apply foldl_proj_eq
  intro b a
  rfl

lemma store_entries_trainer (race : Race) (db : DB) :
    (store_entries_phase race db).trainer_ratings = db.trainer_ratings := by
  unfold store_entries_phase
  apply foldl_proj_eq
  intro b a
  rfl

lemma fetch_horse_phase_driver (names : List String) :
    ∀ (db : DB) (d : ℤ) (tr : Option String),
      (fetch_horse_phase db names d tr).2.driver_ratings = db.driver_ratings := by
  induction names with
  | nil => intro db d tr; rfl
  | cons n ns ih =>
    intro db d tr
    unfold fetch_horse_phase
    dsimp only
    rw [ih, fetch_rating_driver]

lemma fetch_horse_phase_trainer (names : List String) :
    ∀ (db : DB) (d : ℤ) (tr : Option String),
      (fetch_horse_phase db names d tr).2.trainer_ratings = db.trainer_ratings := by
  induction names with
  | nil => intro db d tr; rfl
  | cons n ns ih =>
    intro db d tr
    unfold fetch_horse_phase
    dsimp only
    rw [ih, fetch_rating_trainer]

lemma persist_horses_driver (race : Race) (pairs : List (HorseInfo × Rating)) (db : DB) :
    (persist_horses_phase race pairs db).driver_ratings = db.driver_ratings := by
  unfold persist_horses_phase
  apply foldl_proj_eq
  intro b a
  rfl

lemma persist_horses_trainer (race : Race) (pairs : List (HorseInfo × Rating)) (db : DB) :
    (persist_horses_phase race pairs db).trainer_ratings = db.trainer_ratings := by
  unfold persist_horses_phase
  apply foldl_proj_eq
  intro b a
  rfl

lemma person_entity_step_player (pk : PersonKind) (race : Race)
    (acc : List PersonEntity × DB) (h : HorseInfo) :
    (person_entity_step pk race acc h).2.player_ratings = acc.2.player_ratings := by
  unfold person_entity_step
  cases personNameOf pk h with
  | none => rfl
  | some n =>
    dsimp only
    by_cases hn : n = ""
    · rw [if_pos hn]
    · rw [if_neg hn]
      exact fetch_person_player _ _ _ _ _

lemma person_entity_step_trainer_of_driver (race : Race)
    (acc : List PersonEntity × DB) (h : HorseInfo) :
    (person_entity_step .driver race acc h).2.trainer_ratings = acc.2.trainer_ratings := by
  unfold person_entity_step
  cases personNameOf PersonKind.driver h with
  | none => rfl
  | some n =>
    dsimp only
    by_cases hn : n = ""
    · rw [if_pos hn]
    · rw [if_neg hn]
      exact fetch_person_trainer_of_driver _ _ _ _

lemma person_entity_step_driver_of_trainer (race : Race)
    (acc : List PersonEntity × DB) (h : HorseInfo) :
    (person_entity_step .trainer race acc h).2.driver_ratings = acc.2.driver_ratings := by
  unfold person_entity_step
  cases personNameOf PersonKind.trainer h with
  | none => rfl
  | some n =>
    dsimp only
    by_cases hn : n = ""
    · rw [if_pos hn]
    · rw [if_neg hn]
      exact fetch_person_driver_of_trainer _ _ _ _

lemma person_entity_step_driver_pres (race : Race) (acc : List PersonEntity × DB)
    (h : HorseInfo) (k : String) (r : PlayerRow)
    (hk : tableLookup acc.2.driver_ratings k = some r) :
    tableLookup (person_entity_step .driver race acc h).2.driver_ratings k = some r := by
  unfold person_entity_step
  cases personNameOf PersonKind.driver h with
  | none => exact hk
  | some n =>
    dsimp only
    by_cases hn : n = ""
    · rw [if_pos hn]; exact hk
    · rw [if_neg hn]
      exact fetch_person_own_pres acc.2 n PersonKind.driver race.date (some race.track) k r hk

lemma person_entities_player (pk : PersonKind) (race : Race) (db : DB) :
    (person_entities_phase pk race db).2.player_ratings = db.player_ratings :=
  foldl_proj_eq (person_entity_step pk race) (fun acc => acc.2.player_ratings)
    (fun b a => person_entity_step_player pk race b a) (sorted_horses race) ([], db)

lemma person_entities_trainer_of_driver (race : Race) (db : DB) :
    (person_entities_phase .driver race db).2.trainer_ratings = db.trainer_ratings :=
  foldl_proj_eq (person_entity_step .driver race) (fun acc => acc.2.trainer_ratings)
    (fun b a => person_entity_step_trainer_of_driver race b a) (sorted_horses race) ([], db)

lemma person_entities_driver_of_trainer (race : Race) (db : DB) :
    (person_entities_phase .trainer race db).2.driver_ratings = db.driver_ratings :=
  foldl_proj_eq (person_entity_step .trainer race) (fun acc => acc.2.driver_ratings)
    (fun b a => person_entity_step_driver_of_trainer race b a) (sorted_horses race) ([], db)

lemma person_entities_driver_pres (race : Race) (db : DB) (k : String) (r : PlayerRow)
    (hk : tableLookup db.driver_ratings k = some r) :
    tableLookup (person_entities_phase .driver race db).2.driver_ratings k = some r :=
  foldl_pred (fun (acc : List PersonEntity × DB) =>
      tableLookup acc.2.driver_ratings k = some r)
    (person_entity_step .driver race)
    (fun b a hb => person_entity_step_driver_pres race b a k r hb)
    (sorted_horses race) ([], db) hk

lemma persist_persons_driver_of_trainer (race : Race)
    (pairs : List (PersonEntity × Rating)) (db : DB) :
    (persist_persons_phase .trainer race pairs db).driver_ratings = db.driver_ratings := by
  unfold persist_persons_phase
  apply foldl_proj_eq
  intro b a
  rfl

lemma persist_persons_player (pk : PersonKind) (race : Race)
    (pairs : List (PersonEntity × Rating)) (db : DB) :
    (persist_persons_phase pk race pairs db).player_ratings = db.player_ratings := by
  unfold persist_persons_phase
  apply foldl_proj_eq
  intro b a
  simp only [log_person_race, update_person_rating]
  cases pk <;> rfl

lemma person_rate_trainer_driver (rate : List Rating → List ℤ → Option (List Rating))
    (race : Race) (db : DB) :
    (person_rate_phase rate .trainer race db).2.driver_ratings = db.driver_ratings := by
  unfold person_rate_phase
  rcases hpe : person_entities_phase .trainer race db with ⟨es, db1⟩
  have hdb1 : db1.driver_ratings = db.driver_ratings := by
    have hx := person_entities_driver_of_trainer race db
    rw [hpe] at hx
    exact hx
  dsimp only
  split_ifs
  · exact hdb1
  · cases rate (es.map PersonEntity.rating) (es.map PersonEntity.rank) with
    | none => exact hdb1
    | some u =>
      dsimp only
      rw [persist_persons_driver_of_trainer, hdb1]

lemma person_rate_player (rate : List Rating → List ℤ → Option (List Rating))
    (pk : PersonKind) (race : Race) (db : DB) :
    (person_rate_phase rate pk race db).2.player_ratings = db.player_ratings := by
  unfold person_rate_phase
  rcases hpe : person_entities_phase pk race db with ⟨es, db1⟩
  have hdb1 : db1.player_ratings = db.player_ratings := by
    have hx := person_entities_player pk race db
    rw [hpe] at hx
    exact hx
  dsimp only
  split_ifs
  · exact hdb1
  · cases rate (es.map PersonEntity.rating) (es.map PersonEntity.rank) with
    | none => exact hdb1
    | some u =>
      dsimp only
      rw [persist_persons_player, hdb1]

lemma person_rate_phase_fail (rate : List Rating → List ℤ → Option (List Rating))
    (pk : PersonKind) (race : Race) (db : DB)
    (hne : (person_entities_phase pk race db).1 ≠ [])
    (hfail : rate ((person_entities_phase pk race db).1.map PersonEntity.rating)
      ((person_entities_phase pk race db).1.map PersonEntity.rank) = none) :
    person_rate_phase rate pk race db = (true, (person_entities_phase pk race db).2) := by
  unfold person_rate_phase
  rcases hpe : person_entities_phase pk race db with ⟨es, db1⟩
  rw [hpe] at hne hfail
  dsimp only at hne hfail ⊢
  rw [if_neg (by simpa using hne)]
  rw [hfail]

lemma person_entity_step_trainer_pres (race : Race) (acc : List PersonEntity × DB)
    (h : HorseInfo) (k : String) (r : PlayerRow)
    (hk : tableLookup acc.2.trainer_ratings k = some r) :
    tableLookup (person_entity_step .trainer race acc h).2.trainer_ratings k = some r := by
  unfold person_entity_step
  cases personNameOf PersonKind.trainer h with
  | none => exact hk
  | some n =>
    dsimp only
    by_cases hn : n = ""
    · rw [if_pos hn]; exact hk
    · rw [if_neg hn]
      exact fetch_person_own_pres acc.2 n PersonKind.trainer race.date (some race.track) k r hk

lemma person_entities_trainer_pres (race : Race) (db : DB) (k : String) (r : PlayerRow)
    (hk : tableLookup db.trainer_ratings k = some r) :
    tableLookup (person_entities_phase .trainer race db).2.trainer_ratings k = some r :=
  foldl_pred (fun (acc : List PersonEntity × DB) =>
      tableLookup acc.2.trainer_ratings k = some r)
    (person_entity_step .trainer race)
    (fun b a hb => person_entity_step_trainer_pres race b a k r hb)
    (sorted_horses race) ([], db) hk

lemma persist_persons_trainer_of_driver (race : Race)
    (pairs : List (PersonEntity × Rating)) (db : DB) :
    (persist_persons_phase .driver race pairs db).trainer_ratings = db.trainer_ratings := by
  unfold persist_persons_phase
  apply foldl_proj_eq
  intro b a
  rfl

lemma person_rate_driver_trainer (rate : List Rating → List ℤ → Option (List Rating))
    (race : Race) (db : DB) :
    (person_rate_phase rate .driver race db).2.trainer_ratings = db.trainer_ratings := by
  unfold person_rate_phase
  rcases hpe : person_entities_phase .driver race db with ⟨es, db1⟩
  have hdb1 : db1.trainer_ratings = db.trainer_ratings := by
    have hx := person_entities_trainer_of_driver race db
    rw [hpe] at hx
    exact hx
  dsimp only
  split_ifs
  · exact hdb1
  · cases rate (es.map PersonEntity.rating) (es.map PersonEntity.rank) with
    | none => exact hdb1
    | some u =>
      dsimp only
      rw [persist_persons_trainer_of_driver, hdb1]

end Stridescore

/-- Claim C5 (amended): containment holds for the driver and trainer
classes, but not for the horse class.  First conjunct: when the horse-class
update succeeded and the driver-class rate call fails, the race still
completes — the outcome flags only the driver class as failed, the
trainer-class update still runs (its phase is applied to the
post-driver-collection state), every pre-existing driver belief row is left
exactly as it was, and the persisted horse-class updates are retained.
Second conjunct, symmetrically: when the horse-class update succeeded, the
driver class ran with whatever flag it produced, and the trainer-class rate
call fails, the race still completes — the outcome carries the driver
class's own flag and flags the trainer class as failed, every pre-existing
trainer belief row is left exactly as it was, and the persisted horse-class
updates are retained. -/
theorem claim_C5_amended_failure_containment
    (rate : List Stridescore.Rating → List ℤ → Option (List Stridescore.Rating))
    (race : Stridescore.Race) (db : Stridescore.DB)
    (hq : race.is_qualifier = false)
    (hv : ¬ ((Stridescore.valid_horses race).length < 2))
    (upd : List Stridescore.Rating)
    (hh : rate (Stridescore.fetch_horse_phase
        (Stridescore.store_entries_phase race db) (Stridescore.horse_names race)
        race.date (some race.track)).1 (Stridescore.ranks_0_based race) = some upd) :
    ((Stridescore.person_entities_phase .driver race
        (Stridescore.pre_driver_state race db upd)).1 ≠ [] →
      rate ((Stridescore.person_entities_phase .driver race
            (Stridescore.pre_driver_state race db upd)).1.map
          Stridescore.PersonEntity.rating)
        ((Stridescore.person_entities_phase .driver race
            (Stridescore.pre_driver_state race db upd)).1.map
          Stridescore.PersonEntity.rank) = none →
      ∃ tf dbf,
        Stridescore.process_parsed_race rate race db =
          (Stridescore.ProcOutcome.processed true tf, dbf) ∧
        (tf, dbf) = Stridescore.person_rate_phase rate .trainer race
          (Stridescore.person_entities_phase .driver race
            (Stridescore.pre_driver_state race db upd)).2 ∧
        (∀ n r, Stridescore.tableLookup db.driver_ratings n = some r →
          Stridescore.tableLookup dbf.driver_ratings n = some r) ∧
        dbf.player_ratings = (Stridescore.pre_driver_state race db upd).player_ratings) ∧
    ((Stridescore.person_entities_phase .trainer race
        (Stridescore.person_rate_phase rate .driver race
          (Stridescore.pre_driver_state race db upd)).2).1 ≠ [] →
      rate ((Stridescore.person_entities_phase .trainer race
            (Stridescore.person_rate_phase rate .driver race
              (Stridescore.pre_driver_state race db upd)).2).1.map
          Stridescore.PersonEntity.rating)
        ((Stridescore.person_entities_phase .trainer race
            (Stridescore.person_rate_phase rate .driver race
              (Stridescore.pre_driver_state race db upd)).2).1.map
          Stridescore.PersonEntity.rank) = none →
      ∃ dbf,
        Stridescore.process_parsed_race rate race db =
          (Stridescore.ProcOutcome.processed
            (Stridescore.person_rate_phase rate .driver race
              (Stridescore.pre_driver_state race db upd)).1 true, dbf) ∧
        dbf = (Stridescore.person_entities_phase .trainer race
          (Stridescore.person_rate_phase rate .driver race
            (Stridescore.pre_driver_state race db upd)).2).2 ∧
        (∀ n r, Stridescore.tableLookup db.trainer_ratings n = some r →
          Stridescore.tableLookup dbf.trainer_ratings n = some r) ∧
        dbf.player_ratings = (Stridescore.pre_driver_state race db upd).player_ratings) := by
  constructor
  · intro hdne hd
    have hdrv : Stridescore.person_rate_phase rate .driver race
        (Stridescore.pre_driver_state race db upd) =
        (true, (Stridescore.person_entities_phase .driver race
          (Stridescore.pre_driver_state race db upd)).2) :=
      Stridescore.person_rate_phase_fail rate .driver race _ hdne hd
    have hproc : Stridescore.process_parsed_race rate race db =
        (Stridescore.ProcOutcome.processed true
          (Stridescore.person_rate_phase rate .trainer race
            (Stridescore.person_entities_phase .driver race
              (Stridescore.pre_driver_state race db upd)).2).1,
          (Stridescore.person_rate_phase rate .trainer race
            (Stridescore.person_entities_phase .driver race
              (Stridescore.pre_driver_state race db upd)).2).2) := by
      simp only [Stridescore.process_parsed_race, if_neg hv,
        if_neg (show ¬ (race.is_qualifier = true) by simp [hq])]
      rw [hh]
      dsimp only
      rw [show Stridescore.persist_horses_phase race
          ((Stridescore.sorted_horses race).zip upd)
          (Stridescore.fetch_horse_phase (Stridescore.store_entries_phase race db)
            (Stridescore.horse_names race) race.date (some race.track)).2 =
        Stridescore.pre_driver_state race db upd from rfl]
      rw [hdrv]
    refine ⟨_, _, hproc, rfl, ?_, ?_⟩
    · intro n r hn
      have h1 : Stridescore.tableLookup
          (Stridescore.store_entries_phase race db).driver_ratings n = some r := by
        rw [Stridescore.store_entries_driver]; exact hn
      have h2 : Stridescore.tableLookup
          (Stridescore.fetch_horse_phase (Stridescore.store_entries_phase race db)
            (Stridescore.horse_names race) race.date (some race.track)).2.driver_ratings n
          = some r := by
        rw [Stridescore.fetch_horse_phase_driver]; exact h1
      have h3 : Stridescore.tableLookup
          (Stridescore.pre_driver_state race db upd).driver_ratings n = some r := by
        unfold Stridescore.pre_driver_state
        rw [Stridescore.persist_horses_driver]; exact h2
      have h4 := Stridescore.person_entities_driver_pres race
        (Stridescore.pre_driver_state race db upd) n r h3
      rw [Stridescore.person_rate_trainer_driver]
      exact h4
    · rw [Stridescore.person_rate_player, Stridescore.person_entities_player]
  · intro htne ht
    rcases hdp : Stridescore.person_rate_phase rate .driver race
        (Stridescore.pre_driver_state race db upd) with ⟨df0, db4⟩
    rw [hdp] at htne ht
    dsimp only at htne ht ⊢
    have htr := Stridescore.person_rate_phase_fail rate .trainer race db4 htne ht
    have hproc : Stridescore.process_parsed_race rate race db =
        (Stridescore.ProcOutcome.processed df0 true,
          (Stridescore.person_entities_phase .trainer race db4).2) := by
      simp only [Stridescore.process_parsed_race, if_neg hv,
        if_neg (show ¬ (race.is_qualifier = true) by simp [hq])]
      rw [hh]
      dsimp only
      rw [show Stridescore.persist_horses_phase race
          ((Stridescore.sorted_horses race).zip upd)
          (Stridescore.fetch_horse_phase (Stridescore.store_entries_phase race db)
            (Stridescore.horse_names race) race.date (some race.track)).2 =
        Stridescore.pre_driver_state race db upd from rfl]
      rw [hdp]
      dsimp only
      rw [htr]
    refine ⟨_, hproc, rfl, ?_, ?_⟩
    · intro n r hn
      have h1 : Stridescore.tableLookup
          (Stridescore.pre_driver_state race db upd).trainer_ratings n = some r := by
        unfold Stridescore.pre_driver_state
        rw [Stridescore.persist_horses_trainer, Stridescore.fetch_horse_phase_trainer,
          Stridescore.store_entries_trainer]
        exact hn
      have h2 : Stridescore.tableLookup db4.trainer_ratings n = some r := by
        have hx := Stridescore.person_rate_driver_trainer rate race
          (Stridescore.pre_driver_state race db upd)
        rw [hdp] at hx
        dsimp only at hx
        rw [hx]
        exact h1
      exact Stridescore.person_entities_trainer_pres race db4 n r h2
    · rw [Stridescore.person_entities_player]
      have hx := Stridescore.person_rate_player rate .driver race
        (Stridescore.pre_driver_state race db upd)
      rw [hdp] at hx
      dsimp only at hx
      exact hx

namespace Stridescore

lemma exDriverRace_sorted : sorted_horses exDriverRace =
    [⟨"a", .pos 1, false, some "d", none⟩, ⟨"b", .pos 2, false, none, none⟩] := by
  have hv : valid_horses exDriverRace =
      [⟨"a", .pos 1, false, some "d", none⟩, ⟨"b", .pos 2, false, none, none⟩] := by decide
  unfold sorted_horses
  rw [hv]
  unfold List.mergeSort
  simp [finishOf]

lemma exDriverRace_ranks : ranks_0_based exDriverRace = [0, 1] := by
  unfold ranks_0_based
  rw [exDriverRace_sorted]
  simp [finishOf]

lemma exDTR_sorted : sorted_horses exDriverTrainerRace =
    [⟨"a", .pos 1, false, some "d", none⟩, ⟨"b", .pos 2, false, none, some "u"⟩] := by
  have hv : valid_horses exDriverTrainerRace =
      [⟨"a", .pos 1, false, some "d", none⟩,
        ⟨"b", .pos 2, false, none, some "u"⟩] := by decide
  unfold sorted_horses
  rw [hv]
  unfold List.mergeSort
  simp [finishOf]

lemma exDTR_names : horse_names exDriverTrainerRace = ["a", "b"] := by
  unfold horse_names
  rw [exDTR_sorted]
  simp [pyLower]

lemma exDTR_ranks : ranks_0_based exDriverTrainerRace = [0, 1] := by
  unfold ranks_0_based
  rw [exDTR_sorted]
  simp [finishOf]

lemma exPlain_sorted : sorted_horses exPlainRace =
    [⟨"a", .pos 1, false, none, none⟩, ⟨"b", .pos 2, false, none, none⟩] := by
  have hv : valid_horses exPlainRace =
      [⟨"a", .pos 1, false, none, none⟩, ⟨"b", .pos 2, false, none, none⟩] := by decide
  unfold sorted_horses
  rw [hv]
  unfold List.mergeSort
  simp [finishOf]

lemma exPlain_names : horse_names exPlainRace = ["a", "b"] := by
  unfold horse_names
  rw [exPlain_sorted]
  simp [pyLower]

lemma exPlain_ranks : ranks_0_based exPlainRace = [0, 1] := by
  unfold ranks_0_based
  rw [exPlain_sorted]
  simp [finishOf]

end Stridescore

/-- Counterexample to claim C5 as stated: when the horse-class TrueSkill
call fails for a race whose winner names driver "d", processing aborts the
whole race — the driver class does not proceed (driver "d" is never even
created, let alone updated). -/
theorem claim_C5_counterexample_horse_failure_blocks_other_classes :
    (Stridescore.process_parsed_race Stridescore.rateFailPair Stridescore.exDriverRace
        Stridescore.emptyDB).1 = Stridescore.ProcOutcome.horseRateFailed ∧
    Stridescore.tableLookup
      (Stridescore.process_parsed_race Stridescore.rateFailPair Stridescore.exDriverRace
        Stridescore.emptyDB).2.driver_ratings "d" = none := by
  have hrate : Stridescore.rateFailPair
      (Stridescore.fetch_horse_phase
        (Stridescore.store_entries_phase Stridescore.exDriverRace Stridescore.emptyDB)
        (Stridescore.horse_names Stridescore.exDriverRace) Stridescore.exDriverRace.date
        (some Stridescore.exDriverRace.track)).1
      (Stridescore.ranks_0_based Stridescore.exDriverRace) = none := by
    rw [Stridescore.exDriverRace_ranks]
    simp [Stridescore.rateFailPair]
  have hproc : Stridescore.process_parsed_race Stridescore.rateFailPair
      Stridescore.exDriverRace Stridescore.emptyDB =
      (Stridescore.ProcOutcome.horseRateFailed,
        (Stridescore.fetch_horse_phase
          (Stridescore.store_entries_phase Stridescore.exDriverRace Stridescore.emptyDB)
          (Stridescore.horse_names Stridescore.exDriverRace) Stridescore.exDriverRace.date
          (some Stridescore.exDriverRace.track)).2) := by
    simp only [Stridescore.process_parsed_race, if_neg (by decide : ¬ ((Stridescore.valid_horses Stridescore.exDriverRace).length < 2)),
      if_neg (by decide : ¬ (Stridescore.exDriverRace.is_qualifier = true))]
    rw [hrate]
  constructor
  · rw [hproc]
  · rw [hproc]
    dsimp only
    rw [Stridescore.fetch_horse_phase_driver, Stridescore.store_entries_driver]
    rfl

/-- Witness for the amended C5: the two-horse race whose winner names driver
"d" and runner-up trainer "u", under a rate function that succeeds on the
horse-class call (ranks [0, 1]) and fails on the single-entity driver-class
(ranks [0]) and trainer-class (ranks [1]) calls. -/
theorem claim_C5_amended_failure_containment_witness :
    (∃ tf dbf,
      Stridescore.process_parsed_race Stridescore.rateFailSingles
          Stridescore.exDriverTrainerRace Stridescore.emptyDB =
        (Stridescore.ProcOutcome.processed true tf, dbf) ∧
      (tf, dbf) = Stridescore.person_rate_phase Stridescore.rateFailSingles .trainer
        Stridescore.exDriverTrainerRace
        (Stridescore.person_entities_phase .driver Stridescore.exDriverTrainerRace
          (Stridescore.pre_driver_state Stridescore.exDriverTrainerRace Stridescore.emptyDB
            [⟨Stridescore.DEFAULT_MU + 1, Stridescore.DEFAULT_SIGMA⟩,
              ⟨Stridescore.DEFAULT_MU + 1, Stridescore.DEFAULT_SIGMA⟩])).2 ∧
      (∀ n r, Stridescore.tableLookup Stridescore.emptyDB.driver_ratings n = some r →
        Stridescore.tableLookup dbf.driver_ratings n = some r) ∧
      dbf.player_ratings =
        (Stridescore.pre_driver_state Stridescore.exDriverTrainerRace Stridescore.emptyDB
          [⟨Stridescore.DEFAULT_MU + 1, Stridescore.DEFAULT_SIGMA⟩,
            ⟨Stridescore.DEFAULT_MU + 1, Stridescore.DEFAULT_SIGMA⟩]).player_ratings) ∧
    (∃ dbf,
      Stridescore.process_parsed_race Stridescore.rateFailSingles
          Stridescore.exDriverTrainerRace Stridescore.emptyDB =
        (Stridescore.ProcOutcome.processed
          (Stridescore.person_rate_phase Stridescore.rateFailSingles .driver
            Stridescore.exDriverTrainerRace
            (Stridescore.pre_driver_state Stridescore.exDriverTrainerRace
              Stridescore.emptyDB
              [⟨Stridescore.DEFAULT_MU + 1, Stridescore.DEFAULT_SIGMA⟩,
                ⟨Stridescore.DEFAULT_MU + 1, Stridescore.DEFAULT_SIGMA⟩])).1 true, dbf) ∧
      dbf = (Stridescore.person_entities_phase .trainer Stridescore.exDriverTrainerRace
        (Stridescore.person_rate_phase Stridescore.rateFailSingles .driver
          Stridescore.exDriverTrainerRace
          (Stridescore.pre_driver_state Stridescore.exDriverTrainerRace Stridescore.emptyDB
            [⟨Stridescore.DEFAULT_MU + 1, Stridescore.DEFAULT_SIGMA⟩,
              ⟨Stridescore.DEFAULT_MU + 1, Stridescore.DEFAULT_SIGMA⟩])).2).2 ∧
      (∀ n r, Stridescore.tableLookup Stridescore.emptyDB.trainer_ratings n = some r →
        Stridescore.tableLookup dbf.trainer_ratings n = some r) ∧
      dbf.player_ratings =
        (Stridescore.pre_driver_state Stridescore.exDriverTrainerRace Stridescore.emptyDB
          [⟨Stridescore.DEFAULT_MU + 1, Stridescore.DEFAULT_SIGMA⟩,
            ⟨Stridescore.DEFAULT_MU + 1, Stridescore.DEFAULT_SIGMA⟩]).player_ratings) := by
  have ht1 : toString (1 : ℤ) = "1" := by decide
  have ht2 : toString (2 : ℤ) = "2" := by decide
  have hdate : Stridescore.exDriverTrainerRace.date = 5 := rfl
  have htrack : Stridescore.exDriverTrainerRace.track = "t" := rfl
  have hnum : Stridescore.exDriverTrainerRace.race_number = 1 := rfl
  have hgait : Stridescore.exDriverTrainerRace.gait = "pace" := rfl
  have hisq : Stridescore.exDriverTrainerRace.is_qualifier = false := rfl
  have hclass : Stridescore.exDriverTrainerRace.race_class = none := rfl
  have hfetch : Stridescore.fetch_horse_phase
      (Stridescore.store_entries_phase Stridescore.exDriverTrainerRace Stridescore.emptyDB)
      (Stridescore.horse_names Stridescore.exDriverTrainerRace)
      Stridescore.exDriverTrainerRace.date (some Stridescore.exDriverTrainerRace.track) =
      ([⟨Stridescore.DEFAULT_MU, Stridescore.DEFAULT_SIGMA⟩,
          ⟨Stridescore.DEFAULT_MU, Stridescore.DEFAULT_SIGMA⟩],
        ⟨[("a", ⟨Stridescore.DEFAULT_MU, Stridescore.DEFAULT_SIGMA, 5, some "t"⟩),
            ("b", ⟨Stridescore.DEFAULT_MU, Stridescore.DEFAULT_SIGMA, 5, some "t"⟩)],
          [], [], [], [], [],
          [⟨5, "t", 1, "a", some "d", none, some "1", none, "pace", false⟩,
            ⟨5, "t", 1, "b", none, some "u", some "2", none, "pace", false⟩]⟩) := by
    rw [Stridescore.exDTR_names]
    simp [Stridescore.store_entries_phase, Stridescore.exDTR_sorted,
      Stridescore.store_race_entry, Stridescore.insertOrReplaceEntry,
      Stridescore.raceEntryKey, Stridescore.fetch_horse_phase,
      Stridescore.fetch_and_decay_rating, Stridescore.get_player_rating,
      Stridescore.add_horse, Stridescore.insertOrIgnore, Stridescore.tableLookup,
      Stridescore.defaultRow, Stridescore.pyLower, Stridescore.finishOf, ht1, ht2,
      Stridescore.emptyDB, hdate, htrack, hnum, hgait, hisq, hclass]
  have hupd : Stridescore.rateFailSingles
      [⟨Stridescore.DEFAULT_MU, Stridescore.DEFAULT_SIGMA⟩,
        ⟨Stridescore.DEFAULT_MU, Stridescore.DEFAULT_SIGMA⟩] [0, 1] =
      some [⟨Stridescore.DEFAULT_MU + 1, Stridescore.DEFAULT_SIGMA⟩,
        ⟨Stridescore.DEFAULT_MU + 1, Stridescore.DEFAULT_SIGMA⟩] := by
    simp [Stridescore.rateFailSingles]
  have hh : Stridescore.rateFailSingles
      (Stridescore.fetch_horse_phase
        (Stridescore.store_entries_phase Stridescore.exDriverTrainerRace
          Stridescore.emptyDB)
        (Stridescore.horse_names Stridescore.exDriverTrainerRace)
        Stridescore.exDriverTrainerRace.date
        (some Stridescore.exDriverTrainerRace.track)).1
      (Stridescore.ranks_0_based Stridescore.exDriverTrainerRace) =
      some [⟨Stridescore.DEFAULT_MU + 1, Stridescore.DEFAULT_SIGMA⟩,
        ⟨Stridescore.DEFAULT_MU + 1, Stridescore.DEFAULT_SIGMA⟩] := by
    rw [hfetch, Stridescore.exDTR_ranks]
    exact hupd
  have hpds : Stridescore.pre_driver_state Stridescore.exDriverTrainerRace
      Stridescore.emptyDB
      [⟨Stridescore.DEFAULT_MU + 1, Stridescore.DEFAULT_SIGMA⟩,
        ⟨Stridescore.DEFAULT_MU + 1, Stridescore.DEFAULT_SIGMA⟩] =
      ⟨[("a", ⟨Stridescore.DEFAULT_MU + 1, Stridescore.DEFAULT_SIGMA, 5, some "t"⟩),
          ("b", ⟨Stridescore.DEFAULT_MU + 1, Stridescore.DEFAULT_SIGMA, 5, some "t"⟩)],
        [], [],
        [⟨"a", Stridescore.DEFAULT_MU + 1, Stridescore.DEFAULT_SIGMA, 5, some "t", none,
            some "1", none⟩,
          ⟨"b", Stridescore.DEFAULT_MU + 1, Stridescore.DEFAULT_SIGMA, 5, some "t", none,
            some "2", none⟩],
        [], [],
        [⟨5, "t", 1, "a", some "d", none, some "1", none, "pace", false⟩,
          ⟨5, "t", 1, "b", none, some "u", some "2", none, "pace", false⟩]⟩ := by
    unfold Stridescore.pre_driver_state
    rw [hfetch]
    dsimp only
    rw [Stridescore.exDTR_sorted]
    simp [Stridescore.persist_horses_phase, Stridescore.update_player_rating,
      Stridescore.updateWhere, Stridescore.log_horse_race, Stridescore.pyLower,
      Stridescore.finishOf, Stridescore.tableLookup, ht1, ht2,
      hdate, htrack, hnum, hgait, hisq, hclass]
  have hent : Stridescore.person_entities_phase .driver Stridescore.exDriverTrainerRace
      (Stridescore.pre_driver_state Stridescore.exDriverTrainerRace Stridescore.emptyDB
        [⟨Stridescore.DEFAULT_MU + 1, Stridescore.DEFAULT_SIGMA⟩,
          ⟨Stridescore.DEFAULT_MU + 1, Stridescore.DEFAULT_SIGMA⟩]) =
      ([⟨"d", ⟨Stridescore.DEFAULT_MU, Stridescore.DEFAULT_SIGMA⟩, 0, "a"⟩],
        ⟨[("a", ⟨Stridescore.DEFAULT_MU + 1, Stridescore.DEFAULT_SIGMA, 5, some "t"⟩),
            ("b", ⟨Stridescore.DEFAULT_MU + 1, Stridescore.DEFAULT_SIGMA, 5, some "t"⟩)],
          [("d", ⟨Stridescore.DEFAULT_MU, Stridescore.DEFAULT_SIGMA, 5, some "t"⟩)], [],
          [⟨"a", Stridescore.DEFAULT_MU + 1, Stridescore.DEFAULT_SIGMA, 5, some "t", none,
              some "1", none⟩,
            ⟨"b", Stridescore.DEFAULT_MU + 1, Stridescore.DEFAULT_SIGMA, 5, some "t", none,
              some "2", none⟩],
          [], [],
          [⟨5, "t", 1, "a", some "d", none, some "1", none, "pace", false⟩,
            ⟨5, "t", 1, "b", none, some "u", some "2", none, "pace", false⟩]⟩) := by
    rw [hpds]
    unfold Stridescore.person_entities_phase
    rw [Stridescore.exDTR_sorted]
    simp [Stridescore.person_entity_step, Stridescore.personNameOf,
      Stridescore.fetch_and_decay_person_rating, Stridescore.get_person_rating,
      Stridescore.personTable, Stridescore.add_person, Stridescore.setPersonTable,
      Stridescore.insertOrIgnore, Stridescore.tableLookup, Stridescore.defaultRow,
      Stridescore.finishOf, hdate, htrack, hnum, hgait, hisq, hclass]
  have hdne : (Stridescore.person_entities_phase .driver Stridescore.exDriverTrainerRace
      (Stridescore.pre_driver_state Stridescore.exDriverTrainerRace Stridescore.emptyDB
        [⟨Stridescore.DEFAULT_MU + 1, Stridescore.DEFAULT_SIGMA⟩,
          ⟨Stridescore.DEFAULT_MU + 1, Stridescore.DEFAULT_SIGMA⟩])).1 ≠ [] := by
    rw [hent]
    simp
  have hd : Stridescore.rateFailSingles
      ((Stridescore.person_entities_phase .driver Stridescore.exDriverTrainerRace
          (Stridescore.pre_driver_state Stridescore.exDriverTrainerRace Stridescore.emptyDB
            [⟨Stridescore.DEFAULT_MU + 1, Stridescore.DEFAULT_SIGMA⟩,
              ⟨Stridescore.DEFAULT_MU + 1, Stridescore.DEFAULT_SIGMA⟩])).1.map
        Stridescore.PersonEntity.rating)
      ((Stridescore.person_entities_phase .driver Stridescore.exDriverTrainerRace
          (Stridescore.pre_driver_state Stridescore.exDriverTrainerRace Stridescore.emptyDB
            [⟨Stridescore.DEFAULT_MU + 1, Stridescore.DEFAULT_SIGMA⟩,
              ⟨Stridescore.DEFAULT_MU + 1, Stridescore.DEFAULT_SIGMA⟩])).1.map
        Stridescore.PersonEntity.rank) = none := by
    rw [hent]
    simp [Stridescore.rateFailSingles]
  have hdrvFail := Stridescore.person_rate_phase_fail Stridescore.rateFailSingles .driver
    Stridescore.exDriverTrainerRace
    (Stridescore.pre_driver_state Stridescore.exDriverTrainerRace Stridescore.emptyDB
      [⟨Stridescore.DEFAULT_MU + 1, Stridescore.DEFAULT_SIGMA⟩,
        ⟨Stridescore.DEFAULT_MU + 1, Stridescore.DEFAULT_SIGMA⟩]) hdne hd
  have hdrvState : (Stridescore.person_rate_phase Stridescore.rateFailSingles .driver
      Stridescore.exDriverTrainerRace
      (Stridescore.pre_driver_state Stridescore.exDriverTrainerRace Stridescore.emptyDB
        [⟨Stridescore.DEFAULT_MU + 1, Stridescore.DEFAULT_SIGMA⟩,
          ⟨Stridescore.DEFAULT_MU + 1, Stridescore.DEFAULT_SIGMA⟩])).2 =
      ⟨[("a", ⟨Stridescore.DEFAULT_MU + 1, Stridescore.DEFAULT_SIGMA, 5, some "t"⟩),
          ("b", ⟨Stridescore.DEFAULT_MU + 1, Stridescore.DEFAULT_SIGMA, 5, some "t"⟩)],
        [("d", ⟨Stridescore.DEFAULT_MU, Stridescore.DEFAULT_SIGMA, 5, some "t"⟩)], [],
        [⟨"a", Stridescore.DEFAULT_MU + 1, Stridescore.DEFAULT_SIGMA, 5, some "t", none,
            some "1", none⟩,
          ⟨"b", Stridescore.DEFAULT_MU + 1, Stridescore.DEFAULT_SIGMA, 5, some "t", none,
            some "2", none⟩],
        [], [],
        [⟨5, "t", 1, "a", some "d", none, some "1", none, "pace", false⟩,
          ⟨5, "t", 1, "b", none, some "u", some "2", none, "pace", false⟩]⟩ := by
    rw [hdrvFail, hent]
  have hentT : Stridescore.person_entities_phase .trainer Stridescore.exDriverTrainerRace
      ⟨[("a", ⟨Stridescore.DEFAULT_MU + 1, Stridescore.DEFAULT_SIGMA, 5, some "t"⟩),
          ("b", ⟨Stridescore.DEFAULT_MU + 1, Stridescore.DEFAULT_SIGMA, 5, some "t"⟩)],
        [("d", ⟨Stridescore.DEFAULT_MU, Stridescore.DEFAULT_SIGMA, 5, some "t"⟩)], [],
        [⟨"a", Stridescore.DEFAULT_MU + 1, Stridescore.DEFAULT_SIGMA, 5, some "t", none,
            some "1", none⟩,
          ⟨"b", Stridescore.DEFAULT_MU + 1, Stridescore.DEFAULT_SIGMA, 5, some "t", none,
            some "2", none⟩],
        [], [],
        [⟨5, "t", 1, "a", some "d", none, some "1", none, "pace", false⟩,
          ⟨5, "t", 1, "b", none, some "u", some "2", none, "pace", false⟩]⟩ =
      ([⟨"u", ⟨Stridescore.DEFAULT_MU, Stridescore.DEFAULT_SIGMA⟩, 1, "b"⟩],
        ⟨[("a", ⟨Stridescore.DEFAULT_MU + 1, Stridescore.DEFAULT_SIGMA, 5, some "t"⟩),
            ("b", ⟨Stridescore.DEFAULT_MU + 1, Stridescore.DEFAULT_SIGMA, 5, some "t"⟩)],
          [("d", ⟨Stridescore.DEFAULT_MU, Stridescore.DEFAULT_SIGMA, 5, some "t"⟩)],
          [("u", ⟨Stridescore.DEFAULT_MU, Stridescore.DEFAULT_SIGMA, 5, some "t"⟩)],
          [⟨"a", Stridescore.DEFAULT_MU + 1, Stridescore.DEFAULT_SIGMA, 5, some "t", none,
              some "1", none⟩,
            ⟨"b", Stridescore.DEFAULT_MU + 1, Stridescore.DEFAULT_SIGMA, 5, some "t", none,
              some "2", none⟩],
          [], [],
          [⟨5, "t", 1, "a", some "d", none, some "1", none, "pace", false⟩,
            ⟨5, "t", 1, "b", none, some "u", some "2", none, "pace", false⟩]⟩) := by
    unfold Stridescore.person_entities_phase
    rw [Stridescore.exDTR_sorted]
    simp [Stridescore.person_entity_step, Stridescore.personNameOf,
      Stridescore.fetch_and_decay_person_rating, Stridescore.get_person_rating,
      Stridescore.personTable, Stridescore.add_person, Stridescore.setPersonTable,
      Stridescore.insertOrIgnore, Stridescore.tableLookup, Stridescore.defaultRow,
      Stridescore.finishOf, hdate, htrack, hnum, hgait, hisq, hclass]
  have htne : (Stridescore.person_entities_phase .trainer Stridescore.exDriverTrainerRace
      (Stridescore.person_rate_phase Stridescore.rateFailSingles .driver
        Stridescore.exDriverTrainerRace
        (Stridescore.pre_driver_state Stridescore.exDriverTrainerRace Stridescore.emptyDB
          [⟨Stridescore.DEFAULT_MU + 1, Stridescore.DEFAULT_SIGMA⟩,
            ⟨Stridescore.DEFAULT_MU + 1, Stridescore.DEFAULT_SIGMA⟩])).2).1 ≠ [] := by
    rw [hdrvState, hentT]
    simp
  have ht : Stridescore.rateFailSingles
      ((Stridescore.person_entities_phase .trainer Stridescore.exDriverTrainerRace
          (Stridescore.person_rate_phase Stridescore.rateFailSingles .driver
            Stridescore.exDriverTrainerRace
            (Stridescore.pre_driver_state Stridescore.exDriverTrainerRace Stridescore.emptyDB
              [⟨Stridescore.DEFAULT_MU + 1, Stridescore.DEFAULT_SIGMA⟩,
                ⟨Stridescore.DEFAULT_MU + 1, Stridescore.DEFAULT_SIGMA⟩])).2).1.map
        Stridescore.PersonEntity.rating)
      ((Stridescore.person_entities_phase .trainer Stridescore.exDriverTrainerRace
          (Stridescore.person_rate_phase Stridescore.rateFailSingles .driver
            Stridescore.exDriverTrainerRace
            (Stridescore.pre_driver_state Stridescore.exDriverTrainerRace Stridescore.emptyDB
              [⟨Stridescore.DEFAULT_MU + 1, Stridescore.DEFAULT_SIGMA⟩,
                ⟨Stridescore.DEFAULT_MU + 1, Stridescore.DEFAULT_SIGMA⟩])).2).1.map
        Stridescore.PersonEntity.rank) = none := by
    rw [hdrvState, hentT]
    simp [Stridescore.rateFailSingles]
  have hmain := claim_C5_amended_failure_containment Stridescore.rateFailSingles
    Stridescore.exDriverTrainerRace Stridescore.emptyDB rfl (by decide)
    [⟨Stridescore.DEFAULT_MU + 1, Stridescore.DEFAULT_SIGMA⟩,
      ⟨Stridescore.DEFAULT_MU + 1, Stridescore.DEFAULT_SIGMA⟩] hh
  exact ⟨hmain.1 hdne hd, hmain.2 htne ht⟩

namespace Stridescore

lemma decay_zero (mu : ℝ) : calculate_rating_decay mu 0 = mu :=
  decay_no_op_of_le (by norm_num)

lemma person_entities_exPlain_nil (pk : PersonKind) (db : DB) :
    person_entities_phase pk exPlainRace db = ([], db) := by
  unfold person_entities_phase
  rw [exPlain_sorted]
  cases pk <;> simp [person_entity_step, personNameOf]

lemma person_rate_exPlain (rate : List Rating → List ℤ → Option (List Rating))
    (pk : PersonKind) (db : DB) :
    person_rate_phase rate pk exPlainRace db = (false, db) := by
  unfold person_rate_phase
  rw [person_entities_exPlain_nil]
  simp

end Stridescore

/-- Claim C1 fails on the code: re-applying the same race re-runs the
Bayesian update — process_parsed_race never consults the race_entries audit
before updating.  For any rate function with the spec's own winner-gains
property (the winner of a two-horse race strictly gains mu), processing the
same two-horse race twice from the empty store leaves the winner "a" with a
strictly larger mu after the second application than after the first: the
beliefs change a second time. -/
theorem claim_C1_reingestion_double_updates
    (rate : List Stridescore.Rating → List ℤ → Option (List Stridescore.Rating))
    (hrate : ∀ r1 r2 : Stridescore.Rating, ∃ u1 u2 : Stridescore.Rating,
      rate [r1, r2] [0, 1] = some [u1, u2] ∧ r1.mu < u1.mu) :
    ∃ row1 row2 : Stridescore.PlayerRow,
      Stridescore.tableLookup
          (Stridescore.process_parsed_race rate Stridescore.exPlainRace
            Stridescore.emptyDB).2.player_ratings "a" = some row1 ∧
      Stridescore.tableLookup
          (Stridescore.process_parsed_race rate Stridescore.exPlainRace
            (Stridescore.process_parsed_race rate Stridescore.exPlainRace
              Stridescore.emptyDB).2).2.player_ratings "a" = some row2 ∧
      row1.mu < row2.mu := by
  obtain ⟨u1, u2, hr1, hu1⟩ := hrate ⟨Stridescore.DEFAULT_MU, Stridescore.DEFAULT_SIGMA⟩
    ⟨Stridescore.DEFAULT_MU, Stridescore.DEFAULT_SIGMA⟩
  obtain ⟨v1, v2, hr2, hv1⟩ := hrate u1 u2
  have ht1 : toString (1 : ℤ) = "1" := by decide
  have ht2 : toString (2 : ℤ) = "2" := by decide
  have hdate : Stridescore.exPlainRace.date = 5 := rfl
  have htrack : Stridescore.exPlainRace.track = "t" := rfl
  have hnum : Stridescore.exPlainRace.race_number = 1 := rfl
  have hgait : Stridescore.exPlainRace.gait = "pace" := rfl
  have hisq : Stridescore.exPlainRace.is_qualifier = false := rfl
  have hclass : Stridescore.exPlainRace.race_class = none := rfl
  have hfetch1 : Stridescore.fetch_horse_phase
      (Stridescore.store_entries_phase Stridescore.exPlainRace Stridescore.emptyDB)
      (Stridescore.horse_names Stridescore.exPlainRace)
      Stridescore.exPlainRace.date (some Stridescore.exPlainRace.track) =
      ([⟨Stridescore.DEFAULT_MU, Stridescore.DEFAULT_SIGMA⟩,
          ⟨Stridescore.DEFAULT_MU, Stridescore.DEFAULT_SIGMA⟩],
        ⟨[("a", ⟨Stridescore.DEFAULT_MU, Stridescore.DEFAULT_SIGMA, 5, some "t"⟩),
            ("b", ⟨Stridescore.DEFAULT_MU, Stridescore.DEFAULT_SIGMA, 5, some "t"⟩)],
          [], [], [], [], [],
          [⟨5, "t", 1, "a", none, none, some "1", none, "pace", false⟩,
            ⟨5, "t", 1, "b", none, none, some "2", none, "pace", false⟩]⟩) := by
    rw [Stridescore.exPlain_names]
    simp [Stridescore.store_entries_phase, Stridescore.exPlain_sorted,
      Stridescore.store_race_entry, Stridescore.insertOrReplaceEntry,
      Stridescore.raceEntryKey, Stridescore.fetch_horse_phase,
      Stridescore.fetch_and_decay_rating, Stridescore.get_player_rating,
      Stridescore.add_horse, Stridescore.insertOrIgnore, Stridescore.tableLookup,
      Stridescore.defaultRow, Stridescore.pyLower, Stridescore.finishOf, ht1, ht2,
      Stridescore.emptyDB, hdate, htrack, hnum, hgait, hisq, hclass]
  have hproc1 : Stridescore.process_parsed_race rate Stridescore.exPlainRace
      Stridescore.emptyDB =
      (Stridescore.ProcOutcome.processed false false,
        ⟨[("a", ⟨u1.mu, u1.sigma, 5, some "t"⟩), ("b", ⟨u2.mu, u2.sigma, 5, some "t"⟩)],
          [], [],
          [⟨"a", u1.mu, u1.sigma, 5, some "t", none, some "1", none⟩,
            ⟨"b", u2.mu, u2.sigma, 5, some "t", none, some "2", none⟩],
          [], [],
          [⟨5, "t", 1, "a", none, none, some "1", none, "pace", false⟩,
            ⟨5, "t", 1, "b", none, none, some "2", none, "pace", false⟩]⟩) := by
    simp only [Stridescore.process_parsed_race,
      if_neg (by decide : ¬ ((Stridescore.valid_horses Stridescore.exPlainRace).length < 2)),
      if_neg (by decide : ¬ (Stridescore.exPlainRace.is_qualifier = true))]
    rw [hfetch1]
    dsimp only
    rw [Stridescore.exPlain_ranks, hr1]
    dsimp only
    rw [Stridescore.person_rate_exPlain rate .driver, Stridescore.person_rate_exPlain
      rate .trainer]
    dsimp only
    rw [Stridescore.exPlain_sorted]
    simp [Stridescore.persist_horses_phase, Stridescore.update_player_rating,
      Stridescore.updateWhere, Stridescore.log_horse_race, Stridescore.pyLower,
      Stridescore.finishOf, Stridescore.tableLookup, ht1, ht2,
      hdate, htrack, hnum, hgait, hisq, hclass]
  have hfetch2 : Stridescore.fetch_horse_phase
      (Stridescore.store_entries_phase Stridescore.exPlainRace
        ⟨[("a", ⟨u1.mu, u1.sigma, 5, some "t"⟩), ("b", ⟨u2.mu, u2.sigma, 5, some "t"⟩)],
          [], [],
          [⟨"a", u1.mu, u1.sigma, 5, some "t", none, some "1", none⟩,
            ⟨"b", u2.mu, u2.sigma, 5, some "t", none, some "2", none⟩],
          [], [],
          [⟨5, "t", 1, "a", none, none, some "1", none, "pace", false⟩,
            ⟨5, "t", 1, "b", none, none, some "2", none, "pace", false⟩]⟩)
      (Stridescore.horse_names Stridescore.exPlainRace)
      Stridescore.exPlainRace.date (some Stridescore.exPlainRace.track) =
      ([u1, u2],
        ⟨[("a", ⟨u1.mu, u1.sigma, 5, some "t"⟩), ("b", ⟨u2.mu, u2.sigma, 5, some "t"⟩)],
          [], [],
          [⟨"a", u1.mu, u1.sigma, 5, some "t", none, some "1", none⟩,
            ⟨"b", u2.mu, u2.sigma, 5, some "t", none, some "2", none⟩],
          [], [],
          [⟨5, "t", 1, "a", none, none, some "1", none, "pace", false⟩,
            ⟨5, "t", 1, "b", none, none, some "2", none, "pace", false⟩]⟩) := by
    rw [Stridescore.exPlain_names]
    simp [Stridescore.store_entries_phase, Stridescore.exPlain_sorted,
      Stridescore.store_race_entry, Stridescore.insertOrReplaceEntry,
      Stridescore.raceEntryKey, Stridescore.fetch_horse_phase,
      Stridescore.fetch_and_decay_rating, Stridescore.get_player_rating,
      Stridescore.add_horse, Stridescore.insertOrIgnore, Stridescore.tableLookup,
      Stridescore.defaultRow, Stridescore.pyLower, Stridescore.finishOf,
      Stridescore.decay_zero, ht1, ht2, hdate, htrack, hnum, hgait, hisq, hclass]
  have hproc2 : Stridescore.process_parsed_race rate Stridescore.exPlainRace
      ⟨[("a", ⟨u1.mu, u1.sigma, 5, some "t"⟩), ("b", ⟨u2.mu, u2.sigma, 5, some "t"⟩)],
        [], [],
        [⟨"a", u1.mu, u1.sigma, 5, some "t", none, some "1", none⟩,
          ⟨"b", u2.mu, u2.sigma, 5, some "t", none, some "2", none⟩],
        [], [],
        [⟨5, "t", 1, "a", none, none, some "1", none, "pace", false⟩,
          ⟨5, "t", 1, "b", none, none, some "2", none, "pace", false⟩]⟩ =
      (Stridescore.ProcOutcome.processed false false,
        ⟨[("a", ⟨v1.mu, v1.sigma, 5, some "t"⟩), ("b", ⟨v2.mu, v2.sigma, 5, some "t"⟩)],
          [], [],
          [⟨"a", u1.mu, u1.sigma, 5, some "t", none, some "1", none⟩,
            ⟨"b", u2.mu, u2.sigma, 5, some "t", none, some "2", none⟩,
            ⟨"a", v1.mu, v1.sigma, 5, some "t", none, some "1", none⟩,
            ⟨"b", v2.mu, v2.sigma, 5, some "t", none, some "2", none⟩],
          [], [],
          [⟨5, "t", 1, "a", none, none, some "1", none, "pace", false⟩,
            ⟨5, "t", 1, "b", none, none, some "2", none, "pace", false⟩]⟩) := by
    simp only [Stridescore.process_parsed_race,
      if_neg (by decide : ¬ ((Stridescore.valid_horses Stridescore.exPlainRace).length < 2)),
      if_neg (by decide : ¬ (Stridescore.exPlainRace.is_qualifier = true))]
    rw [hfetch2]
    dsimp only
    rw [Stridescore.exPlain_ranks, hr2]
    dsimp only
    rw [Stridescore.person_rate_exPlain rate .driver, Stridescore.person_rate_exPlain
      rate .trainer]
    dsimp only
    rw [Stridescore.exPlain_sorted]
    simp [Stridescore.persist_horses_phase, Stridescore.update_player_rating,
      Stridescore.updateWhere, Stridescore.log_horse_race, Stridescore.pyLower,
      Stridescore.finishOf, Stridescore.tableLookup, ht1, ht2,
      hdate, htrack, hnum, hgait, hisq, hclass]
  refine ⟨⟨u1.mu, u1.sigma, 5, some "t"⟩, ⟨v1.mu, v1.sigma, 5, some "t"⟩, ?_, ?_, hv1⟩
  · rw [hproc1]
    simp [Stridescore.tableLookup]
  · rw [hproc1]
    dsimp only
    rw [hproc2]
    simp [Stridescore.tableLookup]

/-- Witness for C1's failing input: the mu-bumping rate function satisfies
the winner-gains hypothesis, and re-processing the plain two-horse race
from the empty store changes horse "a"'s belief a second time. -/
theorem claim_C1_reingestion_double_updates_witness :
    ∃ row1 row2 : Stridescore.PlayerRow,
      Stridescore.tableLookup
          (Stridescore.process_parsed_race Stridescore.rateBump Stridescore.exPlainRace
            Stridescore.emptyDB).2.player_ratings "a" = some row1 ∧
      Stridescore.tableLookup
          (Stridescore.process_parsed_race Stridescore.rateBump Stridescore.exPlainRace
            (Stridescore.process_parsed_race Stridescore.rateBump Stridescore.exPlainRace
              Stridescore.emptyDB).2).2.player_ratings "a" = some row2 ∧
      row1.mu < row2.mu :=
  claim_C1_reingestion_double_updates Stridescore.rateBump (fun r1 r2 =>
    ⟨⟨r1.mu + 1, r1.sigma⟩, ⟨r2.mu + 1, r2.sigma⟩, rfl, lt_add_one r1.mu⟩)
